import Mathlib

/-! Order lifecycle of `order-service`.

A shallow embedding of `internal/order/model/order.go`,
`internal/order/repository/order_repository.go`,
`internal/order/service/order_service.go` and the binding step of
`internal/order/handler/order_handler.go`.

Conventions of the embedding

* `model.OrderStatus` is a Go `string`; it is a `String` here, so values outside
  the seven constants (the empty string included) are inputs like any other.
* Go `uint` identifiers are `Nat`, Go `int` is `Int`; no arithmetic on them can
  overflow in the code embedded here.
* Go `float64` is an abstract carrier `F` with the primitive operations the code
  uses (`Float64`).  Nothing is assumed about these operations, so every theorem
  holds for IEEE binary64 as well as for exact arithmetic; concrete evaluations
  are carried out over `Rat`.
* `time.Time` values are clock readings in `Nat`; `time.Now()` reads `World.now`.
* Go `error` values are their messages; `fmt.Errorf("...: %w", err)` is string
  concatenation.  `log.Printf` calls have no effect on results and are left out.
* The `*gorm.DB` handle and the `mq.Publisher` are collaborators outside the
  repository.  They are modelled as explicit state: the table of orders with
  their preloaded items, and the log of the facts handed to the publisher.  Each
  of them carries a script of outcomes, so that every call may fail.
-/

namespace OrderService

/-! ## `model/order.go` -/

/-- Primitive `float64` operations used by the code: the constant `0.0`, `+`,
`*` and the conversion `float64(int)`; and the two tests of the binding tags on
a `float64` field: `>=` (tag `min`) and being the zero value (tag `required`). -/
class Float64 (F : Type) where
  zero : F
  add : F → F → F
  mul : F → F → F
  ofInt : Int → F
  le : F → F → Bool
  isZero : F → Bool

instance : Float64 Rat where
  zero := 0
  add := fun a b => a + b
  mul := fun a b => a * b
  ofInt := fun n => (n : Rat)
  le := fun a b => decide (a ≤ b)
  isZero := fun a => decide (a = 0)

deriving instance DecidableEq for Except

abbrev OrderStatus := String

def StatusPending : OrderStatus := "pending"
def StatusConfirmed : OrderStatus := "confirmed"
def StatusPaid : OrderStatus := "paid"
def StatusShipped : OrderStatus := "shipped"
def StatusDelivered : OrderStatus := "delivered"
def StatusCancelled : OrderStatus := "cancelled"
def StatusFailed : OrderStatus := "failed"

structure OrderItem (F : Type) where
  ID : Nat
  OrderID : Nat
  ProductID : Nat
  Name : String
  Price : F
  Quantity : Int
  Subtotal : F
  CreatedAt : Nat
  UpdatedAt : Nat
  DeletedAt : Option Nat
  deriving DecidableEq, Repr

structure Order (F : Type) where
  ID : Nat
  CustomerID : Nat
  Status : OrderStatus
  TotalAmount : F
  Items : List (OrderItem F)
  CreatedAt : Nat
  UpdatedAt : Nat
  DeletedAt : Option Nat
  deriving DecidableEq, Repr

structure CreateOrderItemRequest (F : Type) where
  ProductID : Nat
  Name : String
  Price : F
  Quantity : Int
  deriving DecidableEq, Repr

structure CreateOrderRequest (F : Type) where
  CustomerID : Nat
  Items : List (CreateOrderItemRequest F)
  deriving DecidableEq, Repr

structure OrderItemResponse (F : Type) where
  ID : Nat
  ProductID : Nat
  Name : String
  Price : F
  Quantity : Int
  Subtotal : F
  deriving DecidableEq, Repr

structure OrderResponse (F : Type) where
  ID : Nat
  CustomerID : Nat
  Status : OrderStatus
  TotalAmount : F
  Items : List (OrderItemResponse F)
  CreatedAt : Nat
  UpdatedAt : Nat
  deriving DecidableEq, Repr

section Model
variable {F : Type} [Float64 F]

/-- `total := 0.0; for _, item := range o.Items { total += item.Subtotal }`. -/
def Order.CalculateTotal (o : Order F) : Order F :=
  let total := o.Items.foldl (fun total item => Float64.add total item.Subtotal) Float64.zero
  { o with TotalAmount := total }

/-- `oi.Subtotal = oi.Price * float64(oi.Quantity)`. -/
def OrderItem.CalculateSubtotal (oi : OrderItem F) : OrderItem F :=
  { oi with Subtotal := Float64.mul oi.Price (Float64.ofInt oi.Quantity) }

def Order.ToResponse (o : Order F) : OrderResponse F :=
  { ID := o.ID
    CustomerID := o.CustomerID
    Status := o.Status
    TotalAmount := o.TotalAmount
    Items := o.Items.map fun item =>
      { ID := item.ID
        ProductID := item.ProductID
        Name := item.Name
        Price := item.Price
        Quantity := item.Quantity
        Subtotal := item.Subtotal }
    CreatedAt := o.CreatedAt
    UpdatedAt := o.UpdatedAt }

end Model

/-! ## The collaborators: `*gorm.DB` and `mq.Publisher` -/

/-- The database behind the `*gorm.DB` handle: the rows of table `orders`, each
with its rows of `order_items`, in insertion order, and the script of the errors
the coming statements meet (`none`: the statement is executed; an exhausted
script: every further statement is executed).  A row holds the values that were
handed to the store: what a `decimal(10,2)` column or a timestamp column of the
database keeps of a `float64` or of a `time.Time` is not modelled.  So a read
returns what the row holds, and no statement below concludes that an amount or
a timestamp that is read back is the one the service has returned before. -/
structure DB (F : Type) where
  orders : List (Order F)
  outcomes : List (Option String)
  deriving DecidableEq, Repr

/-- A value of the `map[string]any` literals that the service builds. -/
inductive Value (F : Type) where
  | uint : Nat → Value F
  | status : OrderStatus → Value F
  | float : F → Value F
  | items : List (OrderItem F) → Value F
  | time : Nat → Value F
  deriving DecidableEq, Repr

/-- A call `PublishOrderEvent(eventType, orderID, data)`; `data` is the
`map[string]any` literal as the list of its entries. -/
structure Fact (F : Type) where
  eventType : String
  orderID : Nat
  data : List (String × Value F)
  deriving DecidableEq, Repr

/-- The `mq.Publisher` behind the service: the facts handed to it so far, oldest
first, and the script of the results of the coming calls (`none`: `nil`). -/
structure Publisher (F : Type) where
  handed : List (Fact F)
  outcomes : List (Option String)
  deriving DecidableEq, Repr

/-- What the service acts on: the database, the publisher and the clock. -/
structure World (F : Type) where
  db : DB F
  publisher : Publisher F
  now : Nat
  deriving DecidableEq, Repr

section Collaborators
variable {F : Type}

/-- The value of a key of a `map[string]any` literal. -/
def lookupKey (data : List (String × Value F)) (key : String) : Option (Value F) :=
  data.lookup key

/-- Takes the outcome of the next statement from the script. -/
def DB.next (db : DB F) : Option String × DB F :=
  match db.outcomes with
  | [] => (none, db)
  | e :: rest => (e, { db with outcomes := rest })

/-- The error the `k`-th coming statement meets (`0`: the next one). -/
def DB.fault (db : DB F) (k : Nat) : Option String :=
  db.outcomes.getD k none

/-- The row of table `orders` with key `id` that is not soft-deleted. -/
def DB.row (db : DB F) (id : Nat) : Option (Order F) :=
  db.orders.find? fun o => o.ID == id && o.DeletedAt.isNone

/-- The auto-increment key of table `orders`: above every key in the table. -/
def DB.nextOrderID (db : DB F) : Nat :=
  (db.orders.map fun o => o.ID).foldr max 0 + 1

/-- The auto-increment key of table `order_items`. -/
def DB.nextItemID (db : DB F) : Nat :=
  ((db.orders.flatMap fun o => o.Items).map fun i => i.ID).foldr max 0 + 1

/-- The order as `db.Create(order)` leaves it: keys and timestamps that are unset
(zero) are assigned, and the items get the order's key. -/
def DB.assignKeys (db : DB F) (now : Nat) (order : Order F) : Order F :=
  let id := if order.ID = 0 then db.nextOrderID else order.ID
  { order with
    ID := id
    Items := order.Items.enum.map fun (i, item) =>
      { item with
        ID := if item.ID = 0 then db.nextItemID + i else item.ID
        OrderID := id
        CreatedAt := if item.CreatedAt = 0 then now else item.CreatedAt
        UpdatedAt := if item.UpdatedAt = 0 then now else item.UpdatedAt }
    CreatedAt := if order.CreatedAt = 0 then now else order.CreatedAt
    UpdatedAt := if order.UpdatedAt = 0 then now else order.UpdatedAt }

/-- The statement `db.Create(order)`: the order gets its keys and timestamps and
the row is inserted with its items.  An order key that is set and already in the
table is refused. -/
def DB.Create (db : DB F) (now : Nat) (order : Order F) : Order F × DB F × Option String :=
  match db.next with
  | (some err, db) => (order, db, some err)
  | (none, db) =>
    let created := db.assignKeys now order
    if db.orders.any (fun o => o.ID == created.ID) then
      (order, db, some "duplicated key not allowed")
    else
      (created, { db with orders := db.orders ++ [created] }, none)

/-- The statement `db.Preload("Items").First(&order, id)`: the row with that key
which is not soft-deleted, with its items which are not soft-deleted. -/
def DB.First (db : DB F) (id : Nat) : Except String (Order F) × DB F :=
  match db.next with
  | (some err, db) => (.error err, db)
  | (none, db) =>
    match db.row id with
    | none => (.error "record not found", db)
    | some o => (.ok { o with Items := o.Items.filter fun i => i.DeletedAt.isNone }, db)

/-- The statement `db.Preload("Items").Where("customer_id = ?", customerID)
.Limit(limit).Offset(offset).Order("created_at DESC").Find(&orders)`.  Rows with
equal `created_at` keep their insertion order; a negative limit adds no clause,
the limit 0 returns no row, and an offset that is not positive adds no clause
(the handler passes `limit > 0` and `offset >= 0`). -/
def DB.Find (db : DB F) (customerID : Nat) (limit offset : Int) :
    Except String (List (Order F)) × DB F :=
  match db.next with
  | (some err, db) => (.error err, db)
  | (none, db) =>
    let rows := db.orders.filter fun o => o.CustomerID == customerID && o.DeletedAt.isNone
    let rows := rows.map fun o => { o with Items := o.Items.filter fun i => i.DeletedAt.isNone }
    let rows := rows.insertionSort fun a b => b.CreatedAt ≤ a.CreatedAt
    let rows := if 0 < offset then rows.drop offset.toNat else rows
    let rows := if 0 ≤ limit then rows.take limit.toNat else rows
    (.ok rows, db)

/-- The statement `db.Model(&model.Order{}).Where("id = ?", id).Update("status",
status)`: no row matching is no error. -/
def DB.Update (db : DB F) (now : Nat) (id : Nat) (status : OrderStatus) :
    DB F × Option String :=
  match db.next with
  | (some err, db) => (db, some err)
  | (none, db) =>
    ({ db with orders := db.orders.map fun o =>
        if o.ID == id && o.DeletedAt.isNone then { o with Status := status, UpdatedAt := now }
        else o }, none)

/-- A call of the interface method `PublishOrderEvent`: the fact is handed over
and the call returns what the script says. -/
def Publisher.PublishOrderEvent (p : Publisher F) (eventType : String) (orderID : Nat)
    (data : List (String × Value F)) : Publisher F × Option String :=
  let fact : Fact F := { eventType := eventType, orderID := orderID, data := data }
  match p.outcomes with
  | [] => ({ p with handed := p.handed ++ [fact] }, none)
  | e :: rest => ({ handed := p.handed ++ [fact], outcomes := rest }, e)

end Collaborators

/-! ## `repository/order_repository.go` -/

section Repository
variable {F : Type} [Float64 F]

def orderRepository.Create (db : DB F) (now : Nat) (order : Order F) :
    Order F × DB F × Option String :=
  let order := { order with Items := order.Items.map OrderItem.CalculateSubtotal }
  let order := order.CalculateTotal
  db.Create now order

def orderRepository.GetByID (db : DB F) (id : Nat) : Except String (Order F) × DB F :=
  db.First id

def orderRepository.GetByCustomerID (db : DB F) (customerID : Nat) (limit offset : Int) :
    Except String (List (Order F)) × DB F :=
  db.Find customerID limit offset

def orderRepository.UpdateStatus (db : DB F) (now : Nat) (id : Nat) (status : OrderStatus) :
    DB F × Option String :=
  db.Update now id status

end Repository

/-! ## `service/order_service.go`: the transition table -/

/-- The map literal `validTransitions`, as the list of its key/value pairs. -/
def validTransitions : List (OrderStatus × List OrderStatus) :=
  [ (StatusPending, [StatusConfirmed, StatusCancelled]),
    (StatusConfirmed, [StatusPaid, StatusCancelled]),
    (StatusPaid, [StatusShipped]),
    (StatusShipped, [StatusDelivered]),
    (StatusDelivered, []),
    (StatusCancelled, []),
    (StatusFailed, []) ]

/-- `allowedTransitions, exists := validTransitions[from]`, then
`slices.Contains(allowedTransitions, to)`. -/
def isValidStatusTransition (from_ to_ : OrderStatus) : Bool :=
  match validTransitions.lookup from_ with
  | none => false
  | some allowedTransitions => allowedTransitions.contains to_

/-! ## `service/order_service.go`: the operations -/

section Service
variable {F : Type} [Float64 F]

def orderService.publishOrderCreatedEvent (p : Publisher F) (order : Order F) :
    Publisher F × Option String :=
  let eventData : List (String × Value F) :=
    [ ("order_id", .uint order.ID),
      ("customer_id", .uint order.CustomerID),
      ("status", .status order.Status),
      ("total_amount", .float order.TotalAmount),
      ("items", .items order.Items),
      ("created_at", .time order.CreatedAt) ]
  p.PublishOrderEvent "created" order.ID eventData

def orderService.publishOrderStatusChangedEvent (p : Publisher F) (now : Nat) (orderID : Nat)
    (oldStatus newStatus : OrderStatus) : Publisher F × Option String :=
  let eventData : List (String × Value F) :=
    [ ("order_id", .uint orderID),
      ("old_status", .status oldStatus),
      ("new_status", .status newStatus),
      ("changed_at", .time now) ]
  p.PublishOrderEvent "status_changed" orderID eventData

def orderService.publishOrderCancelledEvent (p : Publisher F) (now : Nat) (orderID : Nat) :
    Publisher F × Option String :=
  let eventData : List (String × Value F) :=
    [ ("order_id", .uint orderID),
      ("cancelled_at", .time now) ]
  p.PublishOrderEvent "cancelled" orderID eventData

/-- The `model.Order` that `CreateOrder` builds from the request (lines 38-51);
the fields it does not set have their zero values. -/
def orderService.newOrder (req : CreateOrderRequest F) : Order F :=
  { ID := 0
    CustomerID := req.CustomerID
    Status := StatusPending
    TotalAmount := Float64.zero
    Items := req.Items.map fun item =>
      { ID := 0
        OrderID := 0
        ProductID := item.ProductID
        Name := item.Name
        Price := item.Price
        Quantity := item.Quantity
        Subtotal := Float64.zero
        CreatedAt := 0
        UpdatedAt := 0
        DeletedAt := none }
    CreatedAt := 0
    UpdatedAt := 0
    DeletedAt := none }

def orderService.CreateOrder (w : World F) (req : CreateOrderRequest F) :
    Except String (OrderResponse F) × World F :=
  if req.Items.length = 0 then
    (.error "pedido deve conter pelo menos um item", w)
  else
    let order := orderService.newOrder req
    match orderRepository.Create w.db w.now order with
    | (_, db, some err) => (.error ("erro ao criar pedido: " ++ err), { w with db := db })
    | (order, db, none) =>
      -- the result of the publish is logged and dropped
      let (publisher, _) := orderService.publishOrderCreatedEvent w.publisher order
      (.ok order.ToResponse, { w with db := db, publisher := publisher })

def orderService.GetOrderByID (w : World F) (id : Nat) :
    Except String (OrderResponse F) × World F :=
  match orderRepository.GetByID w.db id with
  | (.error err, db) => (.error ("pedido não encontrado: " ++ err), { w with db := db })
  | (.ok order, db) => (.ok order.ToResponse, { w with db := db })

def orderService.GetOrdersByCustomer (w : World F) (customerID : Nat) (limit offset : Int) :
    Except String (List (OrderResponse F)) × World F :=
  match orderRepository.GetByCustomerID w.db customerID limit offset with
  | (.error err, db) =>
    (.error ("erro ao buscar pedidos do cliente: " ++ err), { w with db := db })
  | (.ok orders, db) => (.ok (orders.map Order.ToResponse), { w with db := db })

def orderService.UpdateOrderStatus (w : World F) (id : Nat) (status : OrderStatus) :
    Except String (OrderResponse F) × World F :=
  match orderRepository.GetByID w.db id with
  | (.error err, db) => (.error ("pedido não encontrado: " ++ err), { w with db := db })
  | (.ok order, db) =>
    if !isValidStatusTransition order.Status status then
      (.error ("transição de status inválida: " ++ order.Status ++ " -> " ++ status),
        { w with db := db })
    else
      match orderRepository.UpdateStatus db w.now id status with
      | (db, some err) => (.error ("erro ao atualizar status: " ++ err), { w with db := db })
      | (db, none) =>
        let (publisher, _) :=
          orderService.publishOrderStatusChangedEvent w.publisher w.now id order.Status status
        orderService.GetOrderByID { w with db := db, publisher := publisher } id

def orderService.CancelOrder (w : World F) (id : Nat) : Option String × World F :=
  match orderRepository.GetByID w.db id with
  | (.error err, db) => (some ("pedido não encontrado: " ++ err), { w with db := db })
  | (.ok order, db) =>
    if order.Status != StatusPending && order.Status != StatusConfirmed then
      (some ("não é possível cancelar pedido com status: " ++ order.Status), { w with db := db })
    else
      match orderRepository.UpdateStatus db w.now id StatusCancelled with
      | (db, some err) => (some ("erro ao cancelar pedido: " ++ err), { w with db := db })
      | (db, none) =>
        let (publisher, _) := orderService.publishOrderCancelledEvent w.publisher w.now id
        (none, { w with db := db, publisher := publisher })

end Service

/-! ## `handler/order_handler.go`: `CreateOrder` -/

section Handler
variable {F : Type} [Float64 F]

/-- The `binding` tags of `CreateOrderItemRequest`: `required` refuses the zero
value of the field, `min=0` on `Price` asks for `Price >= 0` and `min=1` on
`Quantity` for `Quantity >= 1`. -/
def CreateOrderItemRequest.bindingValid (item : CreateOrderItemRequest F) : Bool :=
  item.ProductID != 0 &&
  item.Name != "" &&
  (!Float64.isZero item.Price && Float64.le Float64.zero item.Price) &&
  (item.Quantity != 0 && decide (1 ≤ item.Quantity))

/-- The `binding` tags of `CreateOrderRequest`: `required` on `CustomerID`, and
`required,dive` on `Items`, which validates every item.  (A nil slice, which
`required` refuses, is not told apart from the empty one, which the service
refuses.) -/
def CreateOrderRequest.bindingValid (req : CreateOrderRequest F) : Bool :=
  req.CustomerID != 0 && req.Items.all fun item => item.bindingValid

/-- The response written by the handler: the status code with the `Error` field
of the `ErrorResponse` and, when it comes from the service, its `Message`; or the
status code with the order. -/
inductive HandlerResponse (F : Type) where
  | bindingError (status : Nat) (error : String)
  | serviceError (status : Nat) (error message : String)
  | order (status : Nat) (order : OrderResponse F)
  deriving DecidableEq, Repr

/-- The handler `CreateOrder` on a request body that decodes to `req`:
`ShouldBindJSON` validates the tags, then the service is called. -/
def OrderHandler.CreateOrder (w : World F) (req : CreateOrderRequest F) :
    HandlerResponse F × World F :=
  if !req.bindingValid then
    (.bindingError 400 "Dados inválidos", w)
  else
    match orderService.CreateOrder w req with
    | (.error err, w) => (.serviceError 500 "Erro ao criar pedido" err, w)
    | (.ok order, w) => (.order 201 order, w)

end Handler

/-! ## `pkg/mq/publisher.go` -/

/-- The envelope `OrderEvent`; its field `Type` is `Type_` here, and `Data any`
is a value of a type `δ`. -/
structure OrderEvent (δ : Type) where
  Type_ : String
  OrderID : Int
  Data : δ
  deriving DecidableEq, Repr

/-- A value of the `amqp.Table` of headers. -/
inductive HeaderValue where
  | str : String → HeaderValue
  | int : Int → HeaderValue
  deriving DecidableEq, Repr

/-- The `amqp.Publishing` as `PublishOrderEvent` fills it. -/
structure Publishing where
  ContentType : String
  DeliveryMode : Nat
  Body : String
  Headers : List (String × HeaderValue)
  deriving DecidableEq, Repr

/-- A call `channel.Publish(exchange, key, mandatory, immediate, msg)`. -/
structure PublishCall where
  exchange : String
  key : String
  mandatory : Bool
  immediate : Bool
  msg : Publishing
  deriving DecidableEq, Repr

/-- The `*amqp.Channel` of the publisher: the calls of `Publish` it has received,
oldest first, and the script of the results of the coming calls. -/
structure Channel where
  published : List PublishCall
  outcomes : List (Option String)
  deriving DecidableEq, Repr

structure RabbitMQConfig where
  URL : String
  Exchange : String
  Queue : String
  RoutingKey : String
  deriving DecidableEq, Repr

/-- The struct `publisher`; its connection plays no part in publishing. -/
structure publisher where
  channel : Channel
  config : RabbitMQConfig
  deriving DecidableEq, Repr

/-- The constant `amqp.Persistent`. -/
def amqpPersistent : Nat := 2

/-- The conversion `int(orderID)` of a `uint` to an `int`, both of 64 bits: the
value is read in two's complement. -/
def intOfUint (orderID : Nat) : Int :=
  if orderID % 2 ^ 64 < 2 ^ 63 then ((orderID % 2 ^ 64 : Nat) : Int)
  else ((orderID % 2 ^ 64 : Nat) : Int) - 2 ^ 64

/-- A call of `channel.Publish`: the call is recorded and returns what the script
says. -/
def Channel.Publish (ch : Channel) (exchange key : String) (mandatory immediate : Bool)
    (msg : Publishing) : Channel × Option String :=
  let call : PublishCall :=
    { exchange := exchange, key := key, mandatory := mandatory, immediate := immediate,
      msg := msg }
  match ch.outcomes with
  | [] => ({ ch with published := ch.published ++ [call] }, none)
  | e :: rest => ({ published := ch.published ++ [call], outcomes := rest }, e)

section MQPublisher
variable {δ : Type}

/-- The envelope that `PublishOrderEvent` builds (lines 65-69). -/
def publisher.envelope (eventType : String) (orderID : Nat) (data : δ) : OrderEvent δ :=
  { Type_ := eventType
    OrderID := intOfUint orderID
    Data := data }

/-- The method `PublishOrderEvent` of `publisher`; `marshal` is `json.Marshal` on
envelopes. -/
def publisher.PublishOrderEvent (marshal : OrderEvent δ → Except String String) (p : publisher)
    (eventType : String) (orderID : Nat) (data : δ) : publisher × Option String :=
  let event := publisher.envelope eventType orderID data
  match marshal event with
  | .error err => (p, some ("failed to marshal event: " ++ err))
  | .ok body =>
    let routingKey := "order." ++ eventType
    match p.channel.Publish p.config.Exchange routingKey false false
        { ContentType := "application/json"
          DeliveryMode := amqpPersistent
          Body := body
          Headers := [("event_type", .str eventType), ("order_id", .int (intOfUint orderID))] } with
    | (channel, some err) =>
      ({ p with channel := channel }, some ("failed to publish event: " ++ err))
    | (channel, none) => ({ p with channel := channel }, none)

end MQPublisher

/-! ## `pkg/mq/consumer.go` -/

/-- The terminal actions on a delivery: `msg.Ack(multiple)` and
`msg.Nack(multiple, requeue)`. -/
inductive Acknowledgement where
  | Ack (multiple : Bool)
  | Nack (multiple requeue : Bool)
  deriving DecidableEq, Repr

/-- An `amqp.Delivery`, as far as the consumer reads it. -/
structure Delivery where
  Body : String
  deriving DecidableEq, Repr

/-- What the consumer loop acts on: the state of the handler, the events the
handler has been applied to, and the terminal actions taken on the deliveries,
oldest first. -/
structure Listener (σ δ : Type) where
  state : σ
  invoked : List (OrderEvent δ)
  settled : List (Delivery × Acknowledgement)

section MQConsumer
variable {σ δ : Type}

/-- The method `processMessage`; `unmarshal` is `json.Unmarshal` into an
`OrderEvent`, and an `EventHandler` returns its error and its next state. -/
def consumer.processMessage (unmarshal : String → Except String (OrderEvent δ))
    (l : Listener σ δ) (msg : Delivery) (handler : OrderEvent δ → σ → Option String × σ) :
    Option String × Listener σ δ :=
  match unmarshal msg.Body with
  | .error err => (some ("failed to unmarshal event: " ++ err), l)
  | .ok event =>
    let (err, state) := handler event l.state
    (err, { l with state := state, invoked := l.invoked ++ [event] })

/-- The body of the loop `for msg := range msgs` of `StartListening` (lines
122-129). -/
def consumer.receive (unmarshal : String → Except String (OrderEvent δ))
    (handler : OrderEvent δ → σ → Option String × σ) (l : Listener σ δ) (msg : Delivery) :
    Listener σ δ :=
  match consumer.processMessage unmarshal l msg handler with
  | (some _, l) => { l with settled := l.settled ++ [(msg, .Nack false true)] }
  | (none, l) => { l with settled := l.settled ++ [(msg, .Ack false)] }

/-- The loop `for msg := range msgs` of `StartListening` on the deliveries
`msgs`. -/
def consumer.listen (unmarshal : String → Except String (OrderEvent δ))
    (handler : OrderEvent δ → σ → Option String × σ) (l : Listener σ δ) (msgs : List Delivery) :
    Listener σ δ :=
  msgs.foldl (consumer.receive unmarshal handler) l

end MQConsumer

/-! ## Concrete worlds used in the evaluations -/

/-- An order row over `Rat` with one item of price `10` and quantity `2`. -/
def sampleOrder (id : Nat) (status : OrderStatus) : Order Rat :=
  { ID := id, CustomerID := 42, Status := status, TotalAmount := 20,
    Items := [{ ID := id, OrderID := id, ProductID := 1, Name := "A", Price := 10, Quantity := 2,
                Subtotal := 20, CreatedAt := 5, UpdatedAt := 5, DeletedAt := none }],
    CreatedAt := 5, UpdatedAt := 5, DeletedAt := none }

/-- A world holding the given rows, in which no call fails. -/
def worldOf (orders : List (Order Rat)) : World Rat :=
  { db := { orders := orders, outcomes := [] },
    publisher := { handed := [], outcomes := [] },
    now := 9 }

/-- A world holding the given rows, with the given scripts for the coming
statements of the database and for the coming calls of the publisher. -/
def worldWith (orders : List (Order Rat)) (dbOutcomes pubOutcomes : List (Option String)) :
    World Rat :=
  { db := { orders := orders, outcomes := dbOutcomes },
    publisher := { handed := [], outcomes := pubOutcomes },
    now := 9 }

/-- The seven values of the `OrderStatus` enumeration. -/
def allStatuses : List OrderStatus :=
  [StatusPending, StatusConfirmed, StatusPaid, StatusShipped, StatusDelivered,
   StatusCancelled, StatusFailed]

/-- The six pairs of the lifecycle. -/
def allowedPairs : List (OrderStatus × OrderStatus) :=
  [ ("pending", "confirmed"), ("pending", "cancelled"), ("confirmed", "paid"),
    ("confirmed", "cancelled"), ("paid", "shipped"), ("shipped", "delivered") ]

/-- The effect of the statement of `DB.Update` on one row. -/
def setStatus {F : Type} (now id : Nat) (status : OrderStatus) (o : Order F) : Order F :=
  if o.ID == id && o.DeletedAt.isNone then { o with Status := status, UpdatedAt := now } else o

/-- The call of the store's `UpdateStatus` made by `UpdateOrderStatus` and by
`CancelOrder`, right after they have read the order, returns no error. -/
def storeUpdateStatusSucceeds {F : Type} (w : World F) (id : Nat)
    (status : OrderStatus) : Prop :=
  (orderRepository.UpdateStatus (orderRepository.GetByID w.db id).2 w.now id status).2 = none

instance {F : Type} (w : World F) (id : Nat) (status : OrderStatus) :
    Decidable (storeUpdateStatusSucceeds w id status) := by
  unfold storeUpdateStatusSucceeds; infer_instance

/-- The database with one more row. -/
def DB.insert {F : Type} (db : DB F) (o : Order F) : DB F :=
  { db with orders := db.orders ++ [o] }

/-- The order as the repository's `Create` passes it to `db.Create`: subtotals,
then the total. -/
def recalculated {F : Type} [Float64 F] (order : Order F) : Order F :=
  Order.CalculateTotal { order with Items := order.Items.map OrderItem.CalculateSubtotal }

/-- The order that `CreateOrder` stores and returns when the store's `Create`
succeeds. -/
def created {F : Type} [Float64 F] (w : World F) (req : CreateOrderRequest F) : Order F :=
  w.db.assignKeys w.now (recalculated (orderService.newOrder req))

/-- The call of the store's `Create` made by `CreateOrder` returns no error. -/
def storeCreateSucceeds {F : Type} [Float64 F] (w : World F) (req : CreateOrderRequest F) : Prop :=
  (orderRepository.Create w.db w.now (orderService.newOrder req)).2.2 = none

instance {F : Type} [Float64 F] (w : World F) (req : CreateOrderRequest F) :
    Decidable (storeCreateSucceeds w req) := by
  unfold storeCreateSucceeds; infer_instance

/-- The item of a response, as `ToResponse` builds it. -/
def itemResponse {F : Type} (item : OrderItem F) : OrderItemResponse F :=
  { ID := item.ID
    ProductID := item.ProductID
    Name := item.Name
    Price := item.Price
    Quantity := item.Quantity
    Subtotal := item.Subtotal }

/-- The totals of an order agree with its items: every `Subtotal` is
`Price * float64(Quantity)`, and `TotalAmount` is the sum of the `Subtotal`s,
added in the order of the items to `0.0`. -/
def Order.totalsConsistent {F : Type} [Float64 F] (o : Order F) : Prop :=
  (∀ item ∈ o.Items, item.Subtotal = Float64.mul item.Price (Float64.ofInt item.Quantity)) ∧
  o.TotalAmount = (o.Items.map fun item => item.Subtotal).foldl Float64.add Float64.zero

instance {F : Type} [Float64 F] [DecidableEq F] (o : Order F) : Decidable o.totalsConsistent := by
  unfold Order.totalsConsistent; infer_instance

/-- The totals of a response agree with its items. -/
def OrderResponse.totalsConsistent {F : Type} [Float64 F] (o : OrderResponse F) : Prop :=
  (∀ item ∈ o.Items, item.Subtotal = Float64.mul item.Price (Float64.ofInt item.Quantity)) ∧
  o.TotalAmount = (o.Items.map fun item => item.Subtotal).foldl Float64.add Float64.zero

instance {F : Type} [Float64 F] [DecidableEq F] (o : OrderResponse F) :
    Decidable o.totalsConsistent := by
  unfold OrderResponse.totalsConsistent; infer_instance

/-- The request of customer 42 for two of product 1 ("A", 10.00) and one of
product 2 ("B", 5.50). -/
def sampleRequest : CreateOrderRequest Rat :=
  { CustomerID := 42,
    Items := [{ ProductID := 1, Name := "A", Price := 10, Quantity := 2 },
              { ProductID := 2, Name := "B", Price := 11 / 2, Quantity := 1 }] }

/-- A request with one item of price `-1` and quantity `0`. -/
def negativeRequest : CreateOrderRequest Rat :=
  { CustomerID := 42,
    Items := [{ ProductID := 1, Name := "A", Price := -1, Quantity := 0 }] }

/-- The row as `Preload("Items")` reads it: without its soft-deleted items. -/
def asRead {F : Type} (o : Order F) : Order F :=
  { o with Items := o.Items.filter fun i => i.DeletedAt.isNone }

/-- A stored order whose values have drifted: price 10 and quantity 2 with
subtotal 999, and total 7. -/
def driftedOrder : Order Rat :=
  { ID := 1, CustomerID := 42, Status := "pending", TotalAmount := 7,
    Items := [{ ID := 1, OrderID := 1, ProductID := 1, Name := "A", Price := 10, Quantity := 2,
                Subtotal := 999, CreatedAt := 5, UpdatedAt := 5, DeletedAt := none }],
    CreatedAt := 5, UpdatedAt := 5, DeletedAt := none }

/-- A store whose reads reflect the preceding status write: the two reads of
order `id` that follow the write `UpdateStatus(id, status)` of
`UpdateOrderStatus` (the read that ends the operation, and the read that starts
the next operation on that order) return the order with status `status`. -/
def readsReflectStatusWrite {F : Type} (w : World F) (id : Nat) (status : OrderStatus) : Prop :=
  let db1 := (orderRepository.GetByID w.db id).2
  let db2 := (orderRepository.UpdateStatus db1 w.now id status).1
  ((orderRepository.GetByID db2 id).1.toOption.map fun o => o.Status) = some status ∧
  ((orderRepository.GetByID (orderRepository.GetByID db2 id).2 id).1.toOption.map
    fun o => o.Status) = some status

instance {F : Type} (w : World F) (id : Nat) (status : OrderStatus) :
    Decidable (readsReflectStatusWrite w id status) := by
  unfold readsReflectStatusWrite; infer_instance

/-- The database with the status update applied to its rows. -/
def DB.withStatus {F : Type} (db : DB F) (now id : Nat) (status : OrderStatus) : DB F :=
  { db with orders := db.orders.map (setStatus now id status) }

/-- A publisher on the exchange `orders_exchange` whose channel has received no
call and accepts every call. -/
def samplePublisher : publisher :=
  { channel := { published := [], outcomes := [] },
    config := { URL := "amqp://localhost:5672/", Exchange := "orders_exchange",
                Queue := "order_events", RoutingKey := "order.created" } }

/-- A serialisation of envelopes whose payload is a number, standing for
`json.Marshal`: it writes the type, and fails on an envelope of type `""`. -/
def sampleMarshal (event : OrderEvent Nat) : Except String String :=
  if event.Type_ = "" then .error "unsupported value" else .ok ("type=" ++ event.Type_)

/-- The message `msg` contains the text `part`. -/
def mentions (msg part : String) : Prop :=
  part.data <:+: msg.data

instance (msg part : String) : Decidable (mentions msg part) := by
  unfold mentions; infer_instance

/-- A decoding of bodies into envelopes whose payload is a number, standing for
`json.Unmarshal`: the body `"created"` decodes, every other body does not. -/
def sampleUnmarshal (body : String) : Except String (OrderEvent Nat) :=
  if body = "created" then .ok { Type_ := "created", OrderID := 7, Data := 0 }
  else .error "invalid character"

/-- A handler that counts the events it accepts and refuses those of order 0. -/
def sampleHandler (event : OrderEvent Nat) (count : Nat) : Option String × Nat :=
  if event.OrderID = 0 then (some "unknown order", count) else (none, count + 1)

/-- A listener that has received nothing yet. -/
def sampleListener : Listener Nat Nat :=
  { state := 0, invoked := [], settled := [] }

/-- Between the worlds `w` and `w'` the store has executed one statement, which
has left all rows as they were, and nothing has been handed to the publisher. -/
def onlyRead {F : Type} (w w' : World F) : Prop :=
  w'.db.orders = w.db.orders ∧
  w'.db.outcomes = w.db.outcomes.tail ∧
  w'.publisher = w.publisher ∧
  w'.now = w.now

/-! ## Runs of the service -/

/-- How far a status is along the lifecycle: pending 0, confirmed 1, paid 2,
shipped 3, and 4 for every status without outgoing transition. -/
def rank (s : OrderStatus) : Nat :=
  if s = StatusPending then 0
  else if s = StatusConfirmed then 1
  else if s = StatusPaid then 2
  else if s = StatusShipped then 3
  else 4

/-- The rank of the stored status of an order; 0 while the order is not
stored. -/
def rankOpt : Option OrderStatus → Nat
  | none => 0
  | some s => rank s + 1

/-- The stored status of the order `id`, if it is stored. -/
def statusOf {F : Type} (w : World F) (id : Nat) : Option OrderStatus :=
  (w.db.row id).map fun o => o.Status

/-- A call of one of the five operations of `OrderService`. -/
inductive Call (F : Type) where
  | CreateOrder (req : CreateOrderRequest F)
  | GetOrderByID (id : Nat)
  | GetOrdersByCustomer (customerID : Nat) (limit offset : Int)
  | UpdateOrderStatus (id : Nat) (status : OrderStatus)
  | CancelOrder (id : Nat)

section Runs
variable {F : Type} [Float64 F]

/-- The world after the call. -/
def Call.run (w : World F) : Call F → World F
  | .CreateOrder req => (orderService.CreateOrder w req).2
  | .GetOrderByID id => (orderService.GetOrderByID w id).2
  | .GetOrdersByCustomer customerID limit offset =>
    (orderService.GetOrdersByCustomer w customerID limit offset).2
  | .UpdateOrderStatus id status => (orderService.UpdateOrderStatus w id status).2
  | .CancelOrder id => (orderService.CancelOrder w id).2

/-- The call is a successful status change of the order `id`: an
`UpdateOrderStatus` or a `CancelOrder` of that order which returns no error. -/
def Call.changes (w : World F) (id : Nat) : Call F → Bool
  | .UpdateOrderStatus id' status =>
    id' == id && (orderService.UpdateOrderStatus w id' status).1.toOption.isSome
  | .CancelOrder id' => id' == id && (orderService.CancelOrder w id').1.isNone
  | _ => false

/-- The world after the calls, made one after the other. -/
def runCalls (w : World F) (calls : List (Call F)) : World F :=
  calls.foldl Call.run w

/-- The number of successful status changes of the order `id` among the calls. -/
def countChanges (w : World F) (id : Nat) : List (Call F) → Nat
  | [] => 0
  | call :: calls => (if call.changes w id then 1 else 0) + countChanges (call.run w) id calls

end Runs

/-- One call takes the stored status of an order from `a` to `b`: it leaves it as
it is, or stores the order as pending, or moves it along an allowed
transition. -/
def StatusStep (a b : Option OrderStatus) : Prop :=
  a = b ∨ (a = none ∧ b = some StatusPending) ∨
    ∃ s s', a = some s ∧ b = some s' ∧ isValidStatusTransition s s' = true

/-- The calls that take an order through the whole lifecycle, followed by an
update back to pending and a cancellation. -/
def lifecycleCalls (id : Nat) : List (Call Rat) :=
  [.UpdateOrderStatus id "confirmed", .UpdateOrderStatus id "paid",
   .UpdateOrderStatus id "shipped", .UpdateOrderStatus id "delivered",
   .UpdateOrderStatus id "pending", .CancelOrder id]

/-! # Theorems -/

/-! ## The store -/

section StoreLemmas
variable {F : Type}

theorem DB.next_fst (db : DB F) : db.next.1 = db.fault 0 := by
  unfold DB.next DB.fault
  cases h : db.outcomes <;> simp

theorem DB.next_orders (db : DB F) : db.next.2.orders = db.orders := by
  unfold DB.next
  cases h : db.outcomes <;> simp

theorem DB.next_fault (db : DB F) (k : Nat) : db.next.2.fault k = db.fault (k + 1) := by
  unfold DB.next DB.fault
  cases h : db.outcomes <;> simp [h]

theorem DB.next_row (db : DB F) (id : Nat) : db.next.2.row id = db.row id := by
  unfold DB.row; rw [DB.next_orders]

theorem DB.next_eq (db : DB F) : db.next = (db.fault 0, db.next.2) := by
  rw [← DB.next_fst]

theorem setStatus_ID (now id : Nat) (status : OrderStatus) (o : Order F) :
    (setStatus now id status o).ID = o.ID := by
  unfold setStatus; split <;> rfl

theorem setStatus_DeletedAt (now id : Nat) (status : OrderStatus) (o : Order F) :
    (setStatus now id status o).DeletedAt = o.DeletedAt := by
  unfold setStatus; split <;> rfl

theorem DB.First_eq (db : DB F) (id : Nat) :
    db.First id =
      (match db.fault 0 with
        | some err => .error err
        | none =>
          match db.row id with
          | none => .error "record not found"
          | some o => .ok { o with Items := o.Items.filter fun i => i.DeletedAt.isNone },
       db.next.2) := by
  unfold DB.First
  rw [DB.next_eq]
  cases db.fault 0 with
  | some e => rfl
  | none =>
    simp only [DB.next_row]
    cases db.row id <;> rfl

theorem DB.Update_eq (db : DB F) (now id : Nat) (status : OrderStatus) :
    db.Update now id status =
      (match db.fault 0 with
        | some _ => db.next.2
        | none => db.next.2.withStatus now id status,
       db.fault 0) := by
  unfold DB.Update
  rw [DB.next_eq]
  cases db.fault 0 <;> rfl

theorem row_map_setStatus (orders : List (Order F)) (now id id' : Nat) (status : OrderStatus) :
    (orders.map (setStatus now id status)).find? (fun o => o.ID == id' && o.DeletedAt.isNone) =
      (orders.find? fun o => o.ID == id' && o.DeletedAt.isNone).map (setStatus now id status) := by
  induction orders with
  | nil => rfl
  | cons o rest ih =>
    simp only [List.map_cons, List.find?_cons, setStatus_ID, setStatus_DeletedAt]
    cases h : (o.ID == id' && o.DeletedAt.isNone)
    · simpa using ih
    · simp

theorem DB.withStatus_row (db : DB F) (now id id' : Nat) (status : OrderStatus) :
    (db.withStatus now id status).row id' = (db.row id').map (setStatus now id status) := by
  unfold DB.withStatus DB.row
  exact row_map_setStatus db.orders now id id' status

theorem DB.withStatus_fault (db : DB F) (now id : Nat) (status : OrderStatus) (k : Nat) :
    (db.withStatus now id status).fault k = db.fault k := rfl

theorem DB.withStatus_next (db : DB F) (now id : Nat) (status : OrderStatus) :
    (db.withStatus now id status).next.2 = db.next.2.withStatus now id status := by
  unfold DB.withStatus DB.next
  cases h : db.outcomes <;> simp [h]

theorem DB.row_setStatus {db : DB F} {id : Nat} {o : Order F} (h : db.row id = some o)
    (now : Nat) (status : OrderStatus) :
    setStatus now id status o = { o with Status := status, UpdatedAt := now } := by
  unfold DB.row at h
  have hp := List.find?_some h
  unfold setStatus
  rw [if_pos hp]

theorem DB.row_ID {db : DB F} {id : Nat} {o : Order F} (h : db.row id = some o) : o.ID = id := by
  unfold DB.row at h
  have hp := List.find?_some h
  simp only [Bool.and_eq_true, beq_iff_eq] at hp
  exact hp.1

theorem setStatus_of_ne {now id : Nat} {status : OrderStatus} {o : Order F} (h : o.ID ≠ id) :
    setStatus now id status o = o := by
  unfold setStatus
  have : (o.ID == id) = false := by simpa using h
  simp [this]

end StoreLemmas


/-! ## The transition table -/

theorem isValidStatusTransition_iff (from_ to_ : OrderStatus) :
    isValidStatusTransition from_ to_ = true ↔ (from_, to_) ∈ allowedPairs := by
  unfold isValidStatusTransition validTransitions allowedPairs
  simp only [StatusPending, StatusConfirmed, StatusPaid, StatusShipped, StatusDelivered,
    StatusCancelled, StatusFailed, List.lookup]
  by_cases h1 : from_ = "pending"
  · subst h1; simp
  · by_cases h2 : from_ = "confirmed"
    · subst h2; simp
    · by_cases h3 : from_ = "paid"
      · subst h3; simp
      · by_cases h4 : from_ = "shipped"
        · subst h4; simp
        · by_cases h5 : from_ = "delivered"
          · subst h5; simp
          · by_cases h6 : from_ = "cancelled"
            · subst h6; simp
            · by_cases h7 : from_ = "failed"
              · subst h7; simp
              · have e1 : (from_ == "pending") = false := by simpa using h1
                have e2 : (from_ == "confirmed") = false := by simpa using h2
                have e3 : (from_ == "paid") = false := by simpa using h3
                have e4 : (from_ == "shipped") = false := by simpa using h4
                have e5 : (from_ == "delivered") = false := by simpa using h5
                have e6 : (from_ == "cancelled") = false := by simpa using h6
                have e7 : (from_ == "failed") = false := by simpa using h7
                simp [e1, e2, e3, e4, e5, e6, e7, h1, h2, h3, h4, h5, h6]

theorem isValidStatusTransition_eq_false_iff (from_ to_ : OrderStatus) :
    isValidStatusTransition from_ to_ = false ↔ (from_, to_) ∉ allowedPairs := by
  rw [← isValidStatusTransition_iff]; simp

/-- C1: `isValidStatusTransition from to` is true exactly for the six pairs
pending->confirmed, pending->cancelled, confirmed->paid, confirmed->cancelled,
paid->shipped, shipped->delivered and false for every other pair of strings; in
particular it is false for every self-transition, for every pair whose `from` is
delivered, cancelled or failed, and for every `from` that is not one of the seven
enumeration values (the empty string among them). -/
theorem C1_isValidStatusTransition_table (from_ to_ : OrderStatus) :
    (isValidStatusTransition from_ to_ = true ↔
      (from_, to_) ∈ [("pending", "confirmed"), ("pending", "cancelled"), ("confirmed", "paid"),
        ("confirmed", "cancelled"), ("paid", "shipped"), ("shipped", "delivered")]) ∧
    (isValidStatusTransition from_ to_ = false ↔
      (from_, to_) ∉ [("pending", "confirmed"), ("pending", "cancelled"), ("confirmed", "paid"),
        ("confirmed", "cancelled"), ("paid", "shipped"), ("shipped", "delivered")]) ∧
    isValidStatusTransition from_ from_ = false ∧
    (from_ ∈ [StatusDelivered, StatusCancelled, StatusFailed] →
      isValidStatusTransition from_ to_ = false) ∧
    (from_ ∉ allStatuses → isValidStatusTransition from_ to_ = false) ∧
    isValidStatusTransition "" to_ = false := by
  refine ⟨isValidStatusTransition_iff from_ to_, isValidStatusTransition_eq_false_iff from_ to_,
    ?_, ?_, ?_, ?_⟩
  · rw [isValidStatusTransition_eq_false_iff]
    simp only [allowedPairs, List.mem_cons, Prod.mk.injEq, List.mem_singleton, List.not_mem_nil]
    rintro (⟨h, h'⟩ | ⟨h, h'⟩ | ⟨h, h'⟩ | ⟨h, h'⟩ | ⟨h, h'⟩ | ⟨h, h'⟩ | h) <;>
      first
        | exact h
        | (rw [h] at h'; revert h'; decide)
  · intro h
    rw [isValidStatusTransition_eq_false_iff]
    simp only [StatusDelivered, StatusCancelled, StatusFailed, List.mem_cons, List.mem_singleton,
      List.not_mem_nil, or_false] at h
    rcases h with h | h | h <;> subst h <;> simp [allowedPairs]
  · intro h
    rw [isValidStatusTransition_eq_false_iff]
    simp only [allStatuses, StatusPending, StatusConfirmed, StatusPaid, StatusShipped,
      StatusDelivered, StatusCancelled, StatusFailed, List.mem_cons, List.mem_singleton,
      List.not_mem_nil, or_false, not_or] at h
    simp [allowedPairs, h.1, h.2.1, h.2.2.1, h.2.2.2.1]
  · rw [isValidStatusTransition_eq_false_iff]; simp [allowedPairs]

/-- The table at the value `"refunded"`, which is outside the enumeration, and at
the terminal status delivered. -/
theorem C1_isValidStatusTransition_table_witness :
    isValidStatusTransition "refunded" "pending" = false ∧
    isValidStatusTransition "delivered" "pending" = false :=
  ⟨(C1_isValidStatusTransition_table "refunded" "pending").2.2.2.2.1 (by decide),
   (C1_isValidStatusTransition_table "delivered" "pending").2.2.2.1 (by decide)⟩

/-! ## The service operations, evaluated -/

section ServiceLemmas
variable {F : Type}

theorem GetByID_eq (db : DB F) (id : Nat) :
    orderRepository.GetByID db id =
      (match db.fault 0 with
        | some err => .error err
        | none =>
          match db.row id with
          | none => .error "record not found"
          | some o => .ok { o with Items := o.Items.filter fun i => i.DeletedAt.isNone },
       db.next.2) := by
  unfold orderRepository.GetByID; exact DB.First_eq db id

theorem GetByID_snd (db : DB F) (id : Nat) : (orderRepository.GetByID db id).2 = db.next.2 := by
  rw [GetByID_eq]

theorem GetByID_ok {db : DB F} {id : Nat} {order : Order F}
    (h : (orderRepository.GetByID db id).1 = .ok order) :
    db.fault 0 = none ∧
    (∃ o, db.row id = some o ∧
      order = { o with Items := o.Items.filter fun i => i.DeletedAt.isNone }) ∧
    orderRepository.GetByID db id = (.ok order, db.next.2) := by
  have hs := GetByID_snd db id
  rw [GetByID_eq] at h
  cases hf : db.fault 0 with
  | some e => rw [hf] at h; simp at h
  | none =>
    rw [hf] at h
    cases hr : db.row id with
    | none => rw [hr] at h; simp at h
    | some o =>
      rw [hr] at h
      simp only [Except.ok.injEq] at h
      refine ⟨rfl, ⟨o, rfl, h.symm⟩, ?_⟩
      rw [GetByID_eq, hf, hr]
      simp only [h]

theorem UpdateStatus_eq (db : DB F) (now id : Nat) (status : OrderStatus) :
    orderRepository.UpdateStatus db now id status =
      (match db.fault 0 with
        | some _ => db.next.2
        | none => db.next.2.withStatus now id status,
       db.fault 0) := by
  unfold orderRepository.UpdateStatus; exact DB.Update_eq db now id status

theorem storeUpdateStatusSucceeds_iff (w : World F) (id : Nat) (status : OrderStatus) :
    storeUpdateStatusSucceeds w id status ↔ w.db.fault 1 = none := by
  unfold storeUpdateStatusSucceeds
  rw [UpdateStatus_eq, GetByID_snd, DB.next_fault]

/-- What `CancelOrder` does once the order has been read. -/
theorem CancelOrder_eq (w : World F) (id : Nat) (order : Order F)
    (hget : (orderRepository.GetByID w.db id).1 = .ok order) :
    orderService.CancelOrder w id =
      if order.Status != StatusPending && order.Status != StatusConfirmed then
        (some ("não é possível cancelar pedido com status: " ++ order.Status),
          { w with db := w.db.next.2 })
      else
        match w.db.fault 1 with
        | some err => (some ("erro ao cancelar pedido: " ++ err), { w with db := w.db.next.2.next.2 })
        | none =>
          (none,
            { w with
              db := w.db.next.2.next.2.withStatus w.now id StatusCancelled
              publisher := (orderService.publishOrderCancelledEvent w.publisher w.now id).1 }) := by
  unfold orderService.CancelOrder
  rw [(GetByID_ok hget).2.2]
  simp only []
  split
  · rfl
  · rw [UpdateStatus_eq, DB.next_fault]
    cases w.db.fault 1 <;> rfl

theorem PublishOrderEvent_handed (p : Publisher F) (eventType : String) (orderID : Nat)
    (data : List (String × Value F)) :
    (p.PublishOrderEvent eventType orderID data).1.handed =
      p.handed ++ [{ eventType := eventType, orderID := orderID, data := data }] := by
  unfold Publisher.PublishOrderEvent
  cases p.outcomes <;> rfl

theorem publishOrderCancelledEvent_handed (p : Publisher F) (now id : Nat) :
    (orderService.publishOrderCancelledEvent p now id).1.handed =
      p.handed ++ [{ eventType := "cancelled", orderID := id,
                     data := [("order_id", .uint id), ("cancelled_at", .time now)] }] := by
  unfold orderService.publishOrderCancelledEvent
  exact PublishOrderEvent_handed _ _ _ _

theorem GetOrderByID_eq (w : World F) (id : Nat) :
    orderService.GetOrderByID w id =
      (match (orderRepository.GetByID w.db id).1 with
        | .error err => .error ("pedido não encontrado: " ++ err)
        | .ok order => .ok order.ToResponse,
       { w with db := w.db.next.2 }) := by
  unfold orderService.GetOrderByID
  have h := GetByID_snd w.db id
  rcases hg : orderRepository.GetByID w.db id with ⟨r, db⟩
  rw [hg] at h
  simp only at h
  subst h
  cases r <;> rfl

/-- What `UpdateOrderStatus` does once the order has been read. -/
theorem UpdateOrderStatus_eq (w : World F) (id : Nat) (status : OrderStatus) (order : Order F)
    (hget : (orderRepository.GetByID w.db id).1 = .ok order) :
    orderService.UpdateOrderStatus w id status =
      if !isValidStatusTransition order.Status status then
        (.error ("transição de status inválida: " ++ order.Status ++ " -> " ++ status),
          { w with db := w.db.next.2 })
      else
        match w.db.fault 1 with
        | some err =>
          (.error ("erro ao atualizar status: " ++ err), { w with db := w.db.next.2.next.2 })
        | none =>
          orderService.GetOrderByID
            { w with
              db := w.db.next.2.next.2.withStatus w.now id status
              publisher := (orderService.publishOrderStatusChangedEvent w.publisher w.now id
                order.Status status).1 } id := by
  unfold orderService.UpdateOrderStatus
  rw [(GetByID_ok hget).2.2]
  simp only []
  split
  · rfl
  · rw [UpdateStatus_eq, DB.next_fault]
    cases w.db.fault 1 <;> rfl

end ServiceLemmas

/-! ## Cancelling -/

/-- C2, as stated, fails: the order 1 is stored with status pending, the read of
`CancelOrder` succeeds and the store's `UpdateStatus` returns an error; then
`CancelOrder` returns an error although the status is pending. -/
theorem C2_CancelOrder_counterexample :
    (orderRepository.GetByID
        (worldWith [sampleOrder 1 "pending"] [none, some "connection lost"] []).db 1).1
      = .ok (sampleOrder 1 "pending") ∧
    (sampleOrder 1 "pending").Status = StatusPending ∧
    (orderService.CancelOrder
        (worldWith [sampleOrder 1 "pending"] [none, some "connection lost"] []) 1).1
      = some "erro ao cancelar pedido: connection lost" := by
  decide

/-- C2 (amended): for every stored order (the store's `GetByID` returns it),
`CancelOrder id` succeeds if and only if the order's status is pending or
confirmed and the store's `UpdateStatus` returns no error; it returns an error
for each of paid, shipped, delivered, cancelled and failed; and on success the
stored status of that order is cancelled and exactly one fact, of kind
"cancelled" and for that order id, has been handed to the publisher. -/
theorem C2_CancelOrder_amended {F : Type} (w : World F) (id : Nat) (order : Order F)
    (hget : (orderRepository.GetByID w.db id).1 = .ok order) :
    ((orderService.CancelOrder w id).1 = none ↔
      (order.Status = StatusPending ∨ order.Status = StatusConfirmed) ∧
        storeUpdateStatusSucceeds w id StatusCancelled) ∧
    (order.Status ∈ [StatusPaid, StatusShipped, StatusDelivered, StatusCancelled, StatusFailed] →
      (orderService.CancelOrder w id).1 =
        some ("não é possível cancelar pedido com status: " ++ order.Status)) ∧
    ((orderService.CancelOrder w id).1 = none →
      ((orderService.CancelOrder w id).2.db.row id).map (fun o => o.Status)
        = some StatusCancelled ∧
      (orderService.CancelOrder w id).2.publisher.handed =
        w.publisher.handed ++
          [{ eventType := "cancelled", orderID := id,
             data := [("order_id", .uint id), ("cancelled_at", .time w.now)] }]) := by
  have heq := CancelOrder_eq w id order hget
  obtain ⟨_, ⟨o, hrow, _⟩, _⟩ := GetByID_ok hget
  rw [storeUpdateStatusSucceeds_iff]
  by_cases hs : (order.Status != StatusPending && order.Status != StatusConfirmed) = true
  · rw [if_pos hs] at heq
    have hne : ¬ (order.Status = StatusPending ∨ order.Status = StatusConfirmed) := by
      simpa [not_or] using hs
    refine ⟨?_, ?_, ?_⟩
    · rw [heq]; simp [hne]
    · intro _; rw [heq]
    · rw [heq]; simp
  · rw [if_neg hs] at heq
    have hst : order.Status = StatusPending ∨ order.Status = StatusConfirmed := by
      by_contra hc
      exact hs (by simpa [not_or] using hc)
    refine ⟨?_, ?_, ?_⟩
    · rw [heq]
      cases w.db.fault 1 <;> simp [hst]
    · intro hmem
      exfalso
      simp only [StatusPaid, StatusShipped, StatusDelivered, StatusCancelled, StatusFailed,
        List.mem_cons, List.mem_singleton, List.not_mem_nil, or_false] at hmem
      simp only [StatusPending, StatusConfirmed] at hst
      rcases hst with h | h <;> rw [h] at hmem <;> revert hmem <;> decide
    · rw [heq]
      cases w.db.fault 1 with
      | some e => simp
      | none =>
        intro _
        refine ⟨?_, publishOrderCancelledEvent_handed _ _ _⟩
        show ((w.db.next.2.next.2.withStatus w.now id StatusCancelled).row id).map _ = _
        rw [DB.withStatus_row, DB.next_row, DB.next_row, hrow, Option.map_some',
          Option.map_some', DB.row_setStatus hrow]

/-- C2 (amended) at the stored order 1 with status confirmed, in a world where no
call fails. -/
theorem C2_CancelOrder_amended_witness :
    (orderService.CancelOrder (worldOf [sampleOrder 1 "confirmed"]) 1).1 = none ∧
    ((orderService.CancelOrder (worldOf [sampleOrder 1 "confirmed"]) 1).2.db.row 1).map
      (fun o => o.Status) = some StatusCancelled :=
  have h := C2_CancelOrder_amended (worldOf [sampleOrder 1 "confirmed"]) 1
    (sampleOrder 1 "confirmed") (by decide)
  have hs : (orderService.CancelOrder (worldOf [sampleOrder 1 "confirmed"]) 1).1 = none :=
    h.1.2 ⟨Or.inr (by decide), by decide⟩
  ⟨hs, (h.2.2 hs).1⟩

/-! ## Updating the status -/

section UpdateLemmas
variable {F : Type}

/-- In a store whose reads reflect the status write, the write and the two reads
after it are executed. -/
theorem readsReflectStatusWrite_faults (w : World F) (id : Nat) (status : OrderStatus)
    (order : Order F) (hget : (orderRepository.GetByID w.db id).1 = .ok order)
    (hne : order.Status ≠ status) (h : readsReflectStatusWrite w id status) :
    w.db.fault 1 = none ∧ w.db.fault 2 = none ∧ w.db.fault 3 = none := by
  obtain ⟨_, ⟨o, hrow, ho⟩, _⟩ := GetByID_ok hget
  have hst : o.Status = order.Status := by rw [ho]
  unfold readsReflectStatusWrite at h
  simp only [GetByID_snd, UpdateStatus_eq, DB.next_fault] at h
  cases h1 : w.db.fault 1 with
  | some e =>
    exfalso
    rw [h1] at h
    simp only [GetByID_eq, DB.next_fault, DB.next_row, hrow] at h
    cases h2 : w.db.fault 2 with
    | some e2 => rw [h2] at h; simp [Except.toOption] at h
    | none =>
      rw [h2] at h
      simp only [Except.toOption, Option.map_some', Option.some.injEq] at h
      exact hne (hst ▸ h.1)
  | none =>
    rw [h1] at h
    simp only [GetByID_eq, DB.withStatus_next, DB.withStatus_fault, DB.next_fault] at h
    cases h2 : w.db.fault 2 with
    | some e2 => exfalso; rw [h2] at h; simp [Except.toOption] at h
    | none =>
      refine ⟨rfl, rfl, ?_⟩
      cases h3 : w.db.fault 3 with
      | none => rfl
      | some e3 => exfalso; rw [h3] at h; simp [Except.toOption] at h

/-- `UpdateOrderStatus` on an allowed transition whose write is executed: the
result is that of the read that follows, the rows carry the update and the fact
is handed over. -/
theorem UpdateOrderStatus_written (w : World F) (id : Nat) (status : OrderStatus)
    (order : Order F) (hget : (orderRepository.GetByID w.db id).1 = .ok order)
    (hvalid : isValidStatusTransition order.Status status = true)
    (h1 : w.db.fault 1 = none) :
    orderService.UpdateOrderStatus w id status =
      (match (orderRepository.GetByID (w.db.next.2.next.2.withStatus w.now id status) id).1 with
        | .error err => .error ("pedido não encontrado: " ++ err)
        | .ok order => .ok order.ToResponse,
       { w with
          db := w.db.next.2.next.2.next.2.withStatus w.now id status
          publisher := (orderService.publishOrderStatusChangedEvent w.publisher w.now id
            order.Status status).1 }) := by
  rw [UpdateOrderStatus_eq w id status order hget, hvalid, h1]
  simp only [Bool.not_true, Bool.false_eq_true, if_false]
  rw [GetOrderByID_eq]
  simp only [DB.withStatus_next]

/-- The read of a stored order after the status update has been applied. -/
theorem GetByID_withStatus (db : DB F) (now id : Nat) (status : OrderStatus) (o : Order F)
    (hrow : db.row id = some o) (hf : db.fault 0 = none) :
    (orderRepository.GetByID (db.withStatus now id status) id).1 =
      .ok { o with
            Status := status
            UpdatedAt := now
            Items := o.Items.filter fun i => i.DeletedAt.isNone } := by
  rw [GetByID_eq, DB.withStatus_fault, hf, DB.withStatus_row, hrow, Option.map_some',
    DB.row_setStatus hrow]

end UpdateLemmas

/-- C3: for every stored order whose status is pending, in a store whose reads
reflect the preceding status write, `UpdateOrderStatus id confirmed` succeeds and
returns the order `id` with status confirmed, and the same call made immediately
afterwards fails with the invalid-transition error. -/
theorem C3_UpdateOrderStatus_confirm_then_reject {F : Type} (w : World F) (id : Nat)
    (order : Order F)
    (hget : (orderRepository.GetByID w.db id).1 = .ok order)
    (hpending : order.Status = StatusPending)
    (hstore : readsReflectStatusWrite w id StatusConfirmed) :
    (∃ resp, (orderService.UpdateOrderStatus w id StatusConfirmed).1 = .ok resp ∧
      resp.ID = id ∧ resp.Status = StatusConfirmed) ∧
    (orderService.UpdateOrderStatus (orderService.UpdateOrderStatus w id StatusConfirmed).2 id
        StatusConfirmed).1
      = .error "transição de status inválida: confirmed -> confirmed" := by
  obtain ⟨h1, h2, h3⟩ := readsReflectStatusWrite_faults w id StatusConfirmed order hget
    (by rw [hpending]; decide) hstore
  obtain ⟨_, ⟨o, hrow, _⟩, _⟩ := GetByID_ok hget
  have hvalid : isValidStatusTransition order.Status StatusConfirmed = true := by
    rw [hpending]; decide
  have hfirst := UpdateOrderStatus_written w id StatusConfirmed order hget hvalid h1
  have hrow2 : w.db.next.2.next.2.row id = some o := by rw [DB.next_row, DB.next_row, hrow]
  have hf2 : w.db.next.2.next.2.fault 0 = none := by rw [DB.next_fault, DB.next_fault]; exact h2
  rw [GetByID_withStatus _ _ _ _ o hrow2 hf2] at hfirst
  refine ⟨⟨_, by rw [hfirst], ?_, rfl⟩, ?_⟩
  · exact DB.row_ID hrow
  · rw [hfirst]
    have hrow3 : w.db.next.2.next.2.next.2.row id = some o := by rw [DB.next_row, hrow2]
    have hf3 : w.db.next.2.next.2.next.2.fault 0 = none := by
      rw [DB.next_fault, DB.next_fault, DB.next_fault]; exact h3
    have hget3 := GetByID_withStatus _ w.now id StatusConfirmed o hrow3 hf3
    rw [UpdateOrderStatus_eq _ id StatusConfirmed _ hget3]
    rfl

/-- C3 at the stored order 1 with status pending, in a world where no call
fails. -/
theorem C3_UpdateOrderStatus_confirm_then_reject_witness :
    (∃ resp, (orderService.UpdateOrderStatus (worldOf [sampleOrder 1 "pending"]) 1
        StatusConfirmed).1 = .ok resp ∧ resp.ID = 1 ∧ resp.Status = StatusConfirmed) ∧
    (orderService.UpdateOrderStatus
        (orderService.UpdateOrderStatus (worldOf [sampleOrder 1 "pending"]) 1
          StatusConfirmed).2 1 StatusConfirmed).1
      = .error "transição de status inválida: confirmed -> confirmed" :=
  C3_UpdateOrderStatus_confirm_then_reject (worldOf [sampleOrder 1 "pending"]) 1
    (sampleOrder 1 "pending") (by decide) (by decide) (by decide)

/-! ## Creating -/

section CreateLemmas
variable {F : Type}

theorem le_foldr_max (l : List Nat) : ∀ n ∈ l, n ≤ l.foldr max 0 := by
  induction l with
  | nil => intro n h; cases h
  | cons a rest ih =>
    intro n h
    rcases List.mem_cons.mp h with h | h
    · subst h; exact le_max_left _ _
    · exact le_trans (ih n h) (le_max_right _ _)

theorem DB.nextOrderID_fresh (db : DB F) :
    db.orders.any (fun o => o.ID == db.nextOrderID) = false := by
  rw [List.any_eq_false]
  intro o ho
  have h := le_foldr_max (db.orders.map fun o => o.ID) o.ID (List.mem_map_of_mem _ ho)
  unfold DB.nextOrderID
  simp only [beq_iff_eq]
  omega

theorem DB.assignKeys_next (db : DB F) (now : Nat) (order : Order F) :
    db.next.2.assignKeys now order = db.assignKeys now order := by
  unfold DB.assignKeys DB.nextOrderID DB.nextItemID
  rw [DB.next_orders]

theorem DB.Create_eq (db : DB F) (now : Nat) (order : Order F) :
    db.Create now order =
      match db.fault 0 with
      | some err => (order, db.next.2, some err)
      | none =>
        if db.orders.any (fun o => o.ID == (db.assignKeys now order).ID) then
          (order, db.next.2, some "duplicated key not allowed")
        else
          (db.assignKeys now order, db.next.2.insert (db.assignKeys now order), none) := by
  unfold DB.Create
  rw [DB.next_eq]
  cases db.fault 0 with
  | some e => rfl
  | none =>
    simp only [DB.assignKeys_next, DB.next_orders, DB.insert]

theorem assignKeys_ID_of_zero (db : DB F) (now : Nat) (order : Order F) (h : order.ID = 0) :
    (db.assignKeys now order).ID = db.nextOrderID := by
  unfold DB.assignKeys
  simp [h]

theorem enum_map_map {α β γ : Type} (l : List α) (f : Nat × α → β) (g : β → γ) (h : α → γ)
    (hfg : ∀ i a, g (f (i, a)) = h a) : (l.enum.map f).map g = l.map h := by
  have e : g ∘ f = h ∘ Prod.snd := by
    funext p
    exact hfg p.1 p.2
  rw [List.map_map, e, ← List.map_map, List.enum_map_snd]

theorem mem_enumFrom_map {α β : Type} (l : List α) (f : Nat × α → β) (n : Nat) :
    ∀ x ∈ (l.enumFrom n).map f, ∃ i a, a ∈ l ∧ x = f (i, a) := by
  induction l generalizing n with
  | nil => intro x h; simp at h
  | cons a rest ih =>
    intro x h
    simp only [List.enumFrom_cons, List.map_cons, List.mem_cons] at h
    rcases h with h | h
    · exact ⟨n, a, List.mem_cons_self _ _, h⟩
    · obtain ⟨i, b, hb, hx⟩ := ih (n + 1) x h
      exact ⟨i, b, List.mem_cons_of_mem _ hb, hx⟩

end CreateLemmas

section CreateService
variable {F : Type} [Float64 F]

theorem repositoryCreate_eq (db : DB F) (now : Nat) (order : Order F) :
    orderRepository.Create db now order = db.Create now (recalculated order) := rfl

theorem newOrder_fresh (db : DB F) (now : Nat) (req : CreateOrderRequest F) :
    db.orders.any
      (fun o => o.ID == (db.assignKeys now (recalculated (orderService.newOrder req))).ID)
      = false := by
  rw [assignKeys_ID_of_zero db now _ rfl]
  exact DB.nextOrderID_fresh db

theorem storeCreateSucceeds_iff (w : World F) (req : CreateOrderRequest F) :
    storeCreateSucceeds w req ↔ w.db.fault 0 = none := by
  unfold storeCreateSucceeds
  rw [repositoryCreate_eq, DB.Create_eq]
  cases h : w.db.fault 0 with
  | some e => simp
  | none => simp [newOrder_fresh]

/-- What `CreateOrder` does on a request with items. -/
theorem CreateOrder_eq (w : World F) (req : CreateOrderRequest F) (hne : req.Items ≠ []) :
    orderService.CreateOrder w req =
      match w.db.fault 0 with
      | some err => (.error ("erro ao criar pedido: " ++ err), { w with db := w.db.next.2 })
      | none =>
        (.ok (created w req).ToResponse,
          { w with
            db := w.db.next.2.insert (created w req)
            publisher := (orderService.publishOrderCreatedEvent w.publisher (created w req)).1 }) := by
  unfold orderService.CreateOrder
  have hlen : ¬ req.Items.length = 0 := by
    intro h; exact hne (List.length_eq_zero.mp h)
  rw [if_neg hlen]
  simp only []
  rw [repositoryCreate_eq, DB.Create_eq]
  cases h : w.db.fault 0 with
  | some e => rfl
  | none =>
    simp only [newOrder_fresh, Bool.false_eq_true, if_false]
    rfl

/-- Whatever totals an order carries, the order that the repository's `Create`
stores has totals that agree with its items. -/
theorem assignKeys_recalculated_totalsConsistent (db : DB F) (now : Nat) (order : Order F) :
    (db.assignKeys now (recalculated order)).totalsConsistent := by
  constructor
  · intro item hitem
    obtain ⟨i, a, ha, hx⟩ := mem_enumFrom_map _ _ 0 item hitem
    obtain ⟨b, _, hb⟩ := List.mem_map.mp ha
    subst hb
    subst hx
    rfl
  · have hitems : (db.assignKeys now (recalculated order)).Items.map (fun item => item.Subtotal)
        = (order.Items.map OrderItem.CalculateSubtotal).map fun item => item.Subtotal :=
      enum_map_map _ _ _ _ (fun _ _ => rfl)
    rw [hitems, List.foldl_map]
    rfl

theorem ToResponse_totalsConsistent (o : Order F) (h : o.totalsConsistent) :
    o.ToResponse.totalsConsistent := by
  obtain ⟨h1, h2⟩ := h
  constructor
  · intro item hitem
    obtain ⟨a, ha, hx⟩ := List.mem_map.mp hitem
    subst hx
    exact h1 a ha
  · have e : o.ToResponse.Items.map (fun item => item.Subtotal)
        = o.Items.map fun item => item.Subtotal := by
      show (o.Items.map _).map _ = _
      rw [List.map_map]; rfl
    rw [e]; exact h2

end CreateService

/-- C4: for every create request with a non-empty item list for which the
store's `Create` succeeds, the order returned by `CreateOrder` and the order
stored have every item `Subtotal` equal to `Price` times `Quantity` and
`TotalAmount` equal to the sum of the item `Subtotal`s (the subtotals and the
total are those computed from the request's prices and quantities); and whatever
`Subtotal` and `TotalAmount` an order carries when it is passed to the
repository's `Create` are overwritten. -/
theorem C4_CreateOrder_totals {F : Type} [Float64 F] (w : World F) (req : CreateOrderRequest F)
    (hne : req.Items ≠ []) (hcreate : storeCreateSucceeds w req) :
    (∃ resp stored,
      (orderService.CreateOrder w req).1 = .ok resp ∧
      (orderService.CreateOrder w req).2.db.orders = w.db.orders ++ [stored] ∧
      resp = stored.ToResponse ∧
      stored.totalsConsistent ∧
      resp.totalsConsistent ∧
      (resp.Items.map fun i => i.Subtotal) =
        req.Items.map (fun i => Float64.mul i.Price (Float64.ofInt i.Quantity)) ∧
      resp.TotalAmount =
        (req.Items.map fun i => Float64.mul i.Price (Float64.ofInt i.Quantity)).foldl
          Float64.add Float64.zero) ∧
    (∀ (db : DB F) (now : Nat) (order : Order F),
      (orderRepository.Create db now order).2.2 = none →
        (orderRepository.Create db now order).1.totalsConsistent) := by
  have hf := (storeCreateSucceeds_iff w req).mp hcreate
  have heq := CreateOrder_eq w req hne
  rw [hf] at heq
  have hcons := assignKeys_recalculated_totalsConsistent w.db w.now (orderService.newOrder req)
  have hsub : ((created w req).ToResponse.Items.map fun i => i.Subtotal) =
      req.Items.map (fun i => Float64.mul i.Price (Float64.ofInt i.Quantity)) := by
    have e1 : ((created w req).ToResponse.Items.map fun i => i.Subtotal)
        = (created w req).Items.map fun i => i.Subtotal := by
      show ((created w req).Items.map _).map _ = _
      rw [List.map_map]; rfl
    have e2 : ((created w req).Items.map fun i => i.Subtotal)
        = ((orderService.newOrder req).Items.map OrderItem.CalculateSubtotal).map
            fun item => item.Subtotal :=
      enum_map_map _ _ _ _ (fun _ _ => rfl)
    rw [e1, e2]
    show ((req.Items.map _).map _).map _ = _
    rw [List.map_map, List.map_map]
    rfl
  refine ⟨⟨(created w req).ToResponse, created w req, by rw [heq], ?_, rfl, hcons,
    ToResponse_totalsConsistent _ hcons, hsub, ?_⟩, ?_⟩
  · rw [heq]
    show w.db.next.2.orders ++ [created w req] = _
    rw [DB.next_orders]
  · rw [← hsub]
    exact (ToResponse_totalsConsistent _ hcons).2
  · intro db now order hok
    rw [repositoryCreate_eq, DB.Create_eq] at hok ⊢
    cases h : db.fault 0 with
    | some e => simp [h] at hok
    | none =>
      rw [h] at hok
      simp only [] at hok ⊢
      split at hok
      · simp at hok
      · rename_i hany
        rw [if_neg hany]
        exact assignKeys_recalculated_totalsConsistent db now order

/-- C4 at the request of customer 42 for (price 10.00, quantity 2) and (price
5.50, quantity 1): the subtotals are 20.00 and 5.50 and the total is 25.50. -/
theorem C4_CreateOrder_totals_witness :
    ((orderService.CreateOrder (worldOf []) sampleRequest).1.toOption.map
      fun r => (r.TotalAmount, r.Items.map fun i => i.Subtotal))
        = some (51 / 2, [20, 11 / 2]) ∧
    ∃ resp stored,
      (orderService.CreateOrder (worldOf []) sampleRequest).1 = .ok resp ∧
      (orderService.CreateOrder (worldOf []) sampleRequest).2.db.orders
        = (worldOf []).db.orders ++ [stored] ∧
      resp = stored.ToResponse ∧
      stored.totalsConsistent ∧
      resp.totalsConsistent ∧
      (resp.Items.map fun i => i.Subtotal) =
        sampleRequest.Items.map (fun i => Float64.mul i.Price (Float64.ofInt i.Quantity)) ∧
      resp.TotalAmount =
        (sampleRequest.Items.map fun i => Float64.mul i.Price (Float64.ofInt i.Quantity)).foldl
          Float64.add Float64.zero :=
  ⟨by decide!, (C4_CreateOrder_totals (worldOf []) sampleRequest (by decide) (by decide!)).1⟩

/-- C5: for every customer id and every state of the store and of the publisher,
`CreateOrder` with an empty item list returns an error and leaves the world as it
was: the store's `Create` is not called (the persisted orders and the script of
the store are unchanged) and no fact is handed to the publisher. -/
theorem C5_CreateOrder_empty_rejected {F : Type} [Float64 F] (w : World F) (customerID : Nat) :
    (orderService.CreateOrder w { CustomerID := customerID, Items := [] }).1
      = .error "pedido deve conter pelo menos um item" ∧
    (orderService.CreateOrder w { CustomerID := customerID, Items := [] }).2 = w ∧
    (orderService.CreateOrder w { CustomerID := customerID, Items := [] }).2.db.orders
      = w.db.orders ∧
    (orderService.CreateOrder w { CustomerID := customerID, Items := [] }).2.db.outcomes
      = w.db.outcomes ∧
    (orderService.CreateOrder w { CustomerID := customerID, Items := [] }).2.publisher.handed
      = w.publisher.handed :=
  ⟨rfl, rfl, rfl, rfl, rfl⟩

theorem publishOrderCreatedEvent_handed {F : Type} (p : Publisher F) (order : Order F) :
    (orderService.publishOrderCreatedEvent p order).1.handed =
      p.handed ++
        [{ eventType := "created", orderID := order.ID,
           data := [("order_id", .uint order.ID),
                    ("customer_id", .uint order.CustomerID),
                    ("status", .status order.Status),
                    ("total_amount", .float order.TotalAmount),
                    ("items", .items order.Items),
                    ("created_at", .time order.CreatedAt)] }] := by
  unfold orderService.publishOrderCreatedEvent
  exact PublishOrderEvent_handed _ _ _ _

/-- C7: for every create request with a non-empty item list for which the
store's `Create` succeeds, `CreateOrder` returns an order with status pending,
the request's customer id and one item per requested item, in the same order,
with the same product id, name, price and quantity; and it hands exactly one
fact to the publisher, of kind "created", carrying that order's id and a payload
whose order id, customer id, status, total amount, items and creation time are
those of the returned order. -/
theorem C7_CreateOrder_created {F : Type} [Float64 F] (w : World F) (req : CreateOrderRequest F)
    (hne : req.Items ≠ []) (hcreate : storeCreateSucceeds w req) :
    ∃ (resp : OrderResponse F) (items : List (OrderItem F)),
      (orderService.CreateOrder w req).1 = .ok resp ∧
      resp.Status = StatusPending ∧
      resp.CustomerID = req.CustomerID ∧
      (resp.Items.map fun i =>
        ({ ProductID := i.ProductID, Name := i.Name, Price := i.Price, Quantity := i.Quantity }
          : CreateOrderItemRequest F)) = req.Items ∧
      resp.Items = items.map itemResponse ∧
      (orderService.CreateOrder w req).2.publisher.handed =
        w.publisher.handed ++
          [{ eventType := "created", orderID := resp.ID,
             data := [("order_id", .uint resp.ID),
                      ("customer_id", .uint resp.CustomerID),
                      ("status", .status resp.Status),
                      ("total_amount", .float resp.TotalAmount),
                      ("items", .items items),
                      ("created_at", .time resp.CreatedAt)] }] := by
  have hf := (storeCreateSucceeds_iff w req).mp hcreate
  have heq := CreateOrder_eq w req hne
  rw [hf] at heq
  refine ⟨(created w req).ToResponse, (created w req).Items, by rw [heq], rfl, rfl, ?_, rfl, ?_⟩
  · show ((created w req).Items.map _).map _ = _
    rw [List.map_map]
    have e : (created w req).Items.map
        ((fun i : OrderItemResponse F =>
            ({ ProductID := i.ProductID, Name := i.Name, Price := i.Price,
               Quantity := i.Quantity } : CreateOrderItemRequest F)) ∘
          fun item : OrderItem F =>
            ({ ID := item.ID, ProductID := item.ProductID, Name := item.Name,
               Price := item.Price, Quantity := item.Quantity,
               Subtotal := item.Subtotal } : OrderItemResponse F))
        = ((orderService.newOrder req).Items.map OrderItem.CalculateSubtotal).map
            fun item : OrderItem F =>
              ({ ProductID := item.ProductID, Name := item.Name, Price := item.Price,
                 Quantity := item.Quantity } : CreateOrderItemRequest F) :=
      enum_map_map _ _ _ _ (fun _ _ => rfl)
    rw [e]
    show ((req.Items.map _).map _).map _ = _
    rw [List.map_map, List.map_map]
    exact List.map_id _
  · rw [heq]
    exact publishOrderCreatedEvent_handed _ _

/-- C7 at the request of customer 42 for (1, "A", 10.00, 2) and (2, "B", 5.50,
1) in an empty store: the order has status pending and total 25.50, its two items
have subtotals 20.00 and 5.50, and one fact, of kind "created", is handed over,
with the order's id, customer, status and total in its payload. -/
theorem C7_CreateOrder_created_witness :
    ((orderService.CreateOrder (worldOf []) sampleRequest).1.toOption.map fun r =>
        (r.ID, r.CustomerID, r.Status, r.TotalAmount))
      = some (1, 42, "pending", 51 / 2) ∧
    ((orderService.CreateOrder (worldOf []) sampleRequest).1.toOption.map fun r =>
        r.Items.map fun i => (i.ProductID, i.Name, i.Price, i.Quantity, i.Subtotal))
      = some [(1, "A", 10, 2, 20), (2, "B", 11 / 2, 1, 11 / 2)] ∧
    ((orderService.CreateOrder (worldOf []) sampleRequest).2.publisher.handed.map fun f =>
        (f.eventType, f.orderID))
      = [("created", 1)] ∧
    ((orderService.CreateOrder (worldOf []) sampleRequest).2.publisher.handed.map fun f =>
        (lookupKey f.data "customer_id", lookupKey f.data "status",
          lookupKey f.data "total_amount"))
      = [(some (.uint 42), some (.status "pending"), some (.float (51 / 2)))] ∧
    ∃ (resp : OrderResponse Rat) (items : List (OrderItem Rat)),
      (orderService.CreateOrder (worldOf []) sampleRequest).1 = .ok resp ∧
      resp.Status = StatusPending ∧
      resp.CustomerID = sampleRequest.CustomerID ∧
      (resp.Items.map fun i =>
        ({ ProductID := i.ProductID, Name := i.Name, Price := i.Price, Quantity := i.Quantity }
          : CreateOrderItemRequest Rat)) = sampleRequest.Items ∧
      resp.Items = items.map itemResponse ∧
      (orderService.CreateOrder (worldOf []) sampleRequest).2.publisher.handed =
        (worldOf []).publisher.handed ++
          [{ eventType := "created", orderID := resp.ID,
             data := [("order_id", .uint resp.ID),
                      ("customer_id", .uint resp.CustomerID),
                      ("status", .status resp.Status),
                      ("total_amount", .float resp.TotalAmount),
                      ("items", .items items),
                      ("created_at", .time resp.CreatedAt)] }] :=
  ⟨by decide!, by decide!, by decide!, by decide!,
    C7_CreateOrder_created (worldOf []) sampleRequest (by decide) (by decide!)⟩

/-- C6, as stated, fails: the service operation `CreateOrder` accepts a request
whose only item has price `-1` and quantity `0`, and persists the order. -/
theorem C6_CreateOrder_service_counterexample :
    (∃ item ∈ negativeRequest.Items, item.Price < 0 ∧ item.Quantity < 1) ∧
    (orderService.CreateOrder (worldOf []) negativeRequest).1.toOption.isSome = true ∧
    ((orderService.CreateOrder (worldOf []) negativeRequest).2.db.orders.map
      fun o => (o.ID, o.CustomerID, o.Items.map fun i => (i.Price, i.Quantity)))
        = [(1, 42, [(-1, 0)])] := by
  refine ⟨⟨_, List.mem_singleton.mpr rfl, by decide, by decide⟩, by decide!, by decide!⟩

/-- C6 (amended): for every create request in which some item has a price that
is not at least 0 (a negative price) or a quantity below 1, the handler
`CreateOrder` refuses the request in its binding step with status 400, before
the service is called: no order is persisted and no fact is handed to the
publisher.  The service operation itself does not look at prices and
quantities: called with such a request, it succeeds whenever the store's `Create`
succeeds. -/
theorem C6_CreateOrder_binding_rejects {F : Type} [Float64 F] (w : World F)
    (req : CreateOrderRequest F)
    (hbad : ∃ item ∈ req.Items,
      Float64.le Float64.zero item.Price = false ∨ item.Quantity < 1) :
    (OrderHandler.CreateOrder w req).1 = .bindingError 400 "Dados inválidos" ∧
    (OrderHandler.CreateOrder w req).2 = w ∧
    (OrderHandler.CreateOrder w req).2.db.orders = w.db.orders ∧
    (OrderHandler.CreateOrder w req).2.publisher.handed = w.publisher.handed ∧
    (storeCreateSucceeds w req →
      (orderService.CreateOrder w req).1 = .ok (created w req).ToResponse) := by
  obtain ⟨item, hmem, hitem⟩ := hbad
  have hinvalid : item.bindingValid = false := by
    unfold CreateOrderItemRequest.bindingValid
    rcases hitem with h | h
    · simp [h]
    · have : ¬ (1 ≤ item.Quantity) := by omega
      simp [this]
  have hreq : req.bindingValid = false := by
    unfold CreateOrderRequest.bindingValid
    have : (req.Items.all fun item => item.bindingValid) = false := by
      rw [List.all_eq_false]
      exact ⟨item, hmem, by simp [hinvalid]⟩
    simp [this]
  have hh : OrderHandler.CreateOrder w req = (.bindingError 400 "Dados inválidos", w) := by
    unfold OrderHandler.CreateOrder
    simp [hreq]
  refine ⟨by rw [hh], by rw [hh], by rw [hh], by rw [hh], ?_⟩
  intro hcreate
  have hne : req.Items ≠ [] := List.ne_nil_of_mem hmem
  rw [CreateOrder_eq w req hne, (storeCreateSucceeds_iff w req).mp hcreate]

/-- C6 (amended) at the request whose only item has price `-1` and quantity
`0`. -/
theorem C6_CreateOrder_binding_rejects_witness :
    (OrderHandler.CreateOrder (worldOf []) negativeRequest).1
      = .bindingError 400 "Dados inválidos" ∧
    (OrderHandler.CreateOrder (worldOf []) negativeRequest).2.db.orders = [] :=
  have h := C6_CreateOrder_binding_rejects (worldOf []) negativeRequest
    ⟨_, List.mem_singleton.mpr rfl, Or.inl (by decide!)⟩
  ⟨h.1, h.2.2.1⟩

/-! ## The outcome of a publish -/

section PublishLemmas
variable {F : Type}

/-- The result and the database left by `CancelOrder` do not depend on the
publisher. -/
theorem CancelOrder_publisher (w : World F) (p : Publisher F) (id : Nat) :
    (orderService.CancelOrder { w with publisher := p } id).1 = (orderService.CancelOrder w id).1 ∧
    (orderService.CancelOrder { w with publisher := p } id).2.db
      = (orderService.CancelOrder w id).2.db := by
  cases hg : (orderRepository.GetByID w.db id).1 with
  | error e =>
    unfold orderService.CancelOrder
    rcases hp : orderRepository.GetByID w.db id with ⟨r, db⟩
    rw [hp] at hg
    simp only at hg
    subst hg
    exact ⟨rfl, rfl⟩
  | ok order =>
    have hg' : (orderRepository.GetByID ({ w with publisher := p } : World F).db id).1
        = .ok order := hg
    rw [CancelOrder_eq w id order hg, CancelOrder_eq _ id order hg']
    split
    · exact ⟨rfl, rfl⟩
    · show (match w.db.fault 1 with | some err => _ | none => _ : Option String × World F).1 = _ ∧ _
      cases w.db.fault 1 <;> exact ⟨rfl, rfl⟩

/-- The result and the database left by `UpdateOrderStatus` do not depend on the
publisher. -/
theorem UpdateOrderStatus_publisher (w : World F) (p : Publisher F) (id : Nat)
    (status : OrderStatus) :
    (orderService.UpdateOrderStatus { w with publisher := p } id status).1
      = (orderService.UpdateOrderStatus w id status).1 ∧
    (orderService.UpdateOrderStatus { w with publisher := p } id status).2.db
      = (orderService.UpdateOrderStatus w id status).2.db := by
  cases hg : (orderRepository.GetByID w.db id).1 with
  | error e =>
    unfold orderService.UpdateOrderStatus
    rcases hp : orderRepository.GetByID w.db id with ⟨r, db⟩
    rw [hp] at hg
    simp only at hg
    subst hg
    exact ⟨rfl, rfl⟩
  | ok order =>
    have hg' : (orderRepository.GetByID ({ w with publisher := p } : World F).db id).1
        = .ok order := hg
    rw [UpdateOrderStatus_eq w id status order hg, UpdateOrderStatus_eq _ id status order hg']
    split
    · exact ⟨rfl, rfl⟩
    · show (match w.db.fault 1 with
        | some err => _
        | none => _ : Except String (OrderResponse F) × World F).1 = _ ∧ _
      cases w.db.fault 1 with
      | some e => exact ⟨rfl, rfl⟩
      | none =>
        rw [GetOrderByID_eq, GetOrderByID_eq]
        exact ⟨rfl, rfl⟩

/-- The result and the database left by `CreateOrder` do not depend on the
publisher. -/
theorem CreateOrder_publisher [Float64 F] (w : World F) (p : Publisher F)
    (req : CreateOrderRequest F) :
    (orderService.CreateOrder { w with publisher := p } req).1
      = (orderService.CreateOrder w req).1 ∧
    (orderService.CreateOrder { w with publisher := p } req).2.db
      = (orderService.CreateOrder w req).2.db := by
  by_cases hne : req.Items = []
  · unfold orderService.CreateOrder
    simp [hne]
  · rw [CreateOrder_eq w req hne, CreateOrder_eq _ req hne]
    show (match w.db.fault 0 with
      | some err => _
      | none => _ : Except String (OrderResponse F) × World F).1 = _ ∧ _
    cases w.db.fault 0 <;> exact ⟨rfl, rfl⟩

theorem created_DeletedAt [Float64 F] (w : World F) (req : CreateOrderRequest F) :
    (created w req).DeletedAt = none := rfl

theorem created_ID [Float64 F] (w : World F) (req : CreateOrderRequest F) :
    (created w req).ID = w.db.nextOrderID :=
  assignKeys_ID_of_zero w.db w.now _ rfl

theorem created_Items_filter [Float64 F] (w : World F) (req : CreateOrderRequest F) :
    (created w req).Items.filter (fun i => i.DeletedAt.isNone) = (created w req).Items := by
  rw [List.filter_eq_self]
  intro item hitem
  obtain ⟨i, a, ha, hx⟩ := mem_enumFrom_map _ _ 0 item hitem
  obtain ⟨b, hb, hab⟩ := List.mem_map.mp ha
  obtain ⟨c, _, hc⟩ := List.mem_map.mp hb
  subst hc
  subst hab
  subst hx
  rfl

/-- The order that `CreateOrder` has stored is the row with its key. -/
theorem row_insert_created [Float64 F] (w : World F) (req : CreateOrderRequest F) :
    (w.db.next.2.insert (created w req)).row (created w req).ID = some (created w req) := by
  unfold DB.row DB.insert
  simp only [DB.next_orders]
  rw [List.find?_append]
  have hnone : List.find?
      (fun o => o.ID == (created w req).ID && o.DeletedAt.isNone) w.db.orders = none := by
    rw [List.find?_eq_none]
    intro o ho
    have hfresh := DB.nextOrderID_fresh w.db
    rw [List.any_eq_false] at hfresh
    have := hfresh o ho
    rw [created_ID]
    simp only [Bool.and_eq_true, not_and]
    intro h; exact absurd h this
  rw [hnone]
  simp [created_DeletedAt]

/-- The read of the order that `CreateOrder` has stored returns it. -/
theorem GetByID_created [Float64 F] (w : World F) (req : CreateOrderRequest F)
    (hf : (w.db.next.2.insert (created w req)).fault 0 = none) :
    (orderRepository.GetByID (w.db.next.2.insert (created w req)) (created w req).ID).1
      = .ok (created w req) := by
  rw [GetByID_eq, hf, row_insert_created]
  simp only [created_Items_filter]

end PublishLemmas

/-- C8, as stated, fails in its last part: the store's `Create` succeeds and the
publish fails, `CreateOrder` returns the created order 1, and the following
`GetOrderByID 1` does not return it, because the store's read fails. -/
theorem C8_publish_outcome_counterexample :
    storeCreateSucceeds
      (worldWith [] [none, some "connection lost"] [some "broker unavailable"]) sampleRequest ∧
    (orderService.publishOrderCreatedEvent
      (worldWith [] [none, some "connection lost"] [some "broker unavailable"]).publisher
      (created (worldWith [] [none, some "connection lost"] [some "broker unavailable"])
        sampleRequest)).2 = some "broker unavailable" ∧
    ((orderService.CreateOrder
      (worldWith [] [none, some "connection lost"] [some "broker unavailable"])
      sampleRequest).1.toOption.map fun r => r.ID) = some 1 ∧
    (orderService.GetOrderByID
      (orderService.CreateOrder
        (worldWith [] [none, some "connection lost"] [some "broker unavailable"])
        sampleRequest).2 1).1 = .error "pedido não encontrado: connection lost" := by
  refine ⟨by decide!, by decide!, by decide!, by decide!⟩

/-- C8 (amended): the outcome of a publish never influences the domain result:
for every input and store state, `CreateOrder`, `UpdateOrderStatus` and
`CancelOrder` return the same result and leave the store in the same state
whatever the publisher is and whatever its `PublishOrderEvent` returns, and a
`GetOrderByID` that follows a `CreateOrder` returns the same in both cases.  In
particular, when the store's `Create` succeeds, also when the publish fails,
`CreateOrder` returns the created order, a row is stored under its id, and a
following `GetOrderByID` with its id returns, provided the store's read succeeds,
the order that this row holds: it has the id, the customer id and the status of
the returned order and, item for item, its product id, name and quantity.  Its
amounts and timestamps are those the store keeps. -/
theorem C8_publish_outcome_amended {F : Type} [Float64 F] (w : World F) (p₁ p₂ : Publisher F)
    (req : CreateOrderRequest F) (id : Nat) (status : OrderStatus) :
    ((orderService.CreateOrder { w with publisher := p₁ } req).1
        = (orderService.CreateOrder { w with publisher := p₂ } req).1 ∧
      (orderService.CreateOrder { w with publisher := p₁ } req).2.db
        = (orderService.CreateOrder { w with publisher := p₂ } req).2.db) ∧
    ((orderService.UpdateOrderStatus { w with publisher := p₁ } id status).1
        = (orderService.UpdateOrderStatus { w with publisher := p₂ } id status).1 ∧
      (orderService.UpdateOrderStatus { w with publisher := p₁ } id status).2.db
        = (orderService.UpdateOrderStatus { w with publisher := p₂ } id status).2.db) ∧
    ((orderService.CancelOrder { w with publisher := p₁ } id).1
        = (orderService.CancelOrder { w with publisher := p₂ } id).1 ∧
      (orderService.CancelOrder { w with publisher := p₁ } id).2.db
        = (orderService.CancelOrder { w with publisher := p₂ } id).2.db) ∧
    ((orderService.GetOrderByID (orderService.CreateOrder { w with publisher := p₁ } req).2 id).1
      = (orderService.GetOrderByID
          (orderService.CreateOrder { w with publisher := p₂ } req).2 id).1) ∧
    (req.Items ≠ [] → storeCreateSucceeds w req →
      ∃ resp o,
        (orderService.CreateOrder w req).1 = .ok resp ∧
        resp = (created w req).ToResponse ∧
        (orderService.CreateOrder w req).2.db.row resp.ID = some o ∧
        (asRead o).ToResponse.ID = resp.ID ∧
        (asRead o).ToResponse.CustomerID = resp.CustomerID ∧
        (asRead o).ToResponse.Status = resp.Status ∧
        ((asRead o).ToResponse.Items.map fun i => (i.ProductID, i.Name, i.Quantity))
          = (resp.Items.map fun i => (i.ProductID, i.Name, i.Quantity)) ∧
        ((orderService.CreateOrder w req).2.db.fault 0 = none →
          (orderService.GetOrderByID (orderService.CreateOrder w req).2 resp.ID).1
            = .ok (asRead o).ToResponse)) := by
  refine ⟨?_, ?_, ?_, ?_, ?_⟩
  · have h1 := CreateOrder_publisher w p₁ req
    have h2 := CreateOrder_publisher w p₂ req
    exact ⟨h1.1.trans h2.1.symm, h1.2.trans h2.2.symm⟩
  · have h1 := UpdateOrderStatus_publisher w p₁ id status
    have h2 := UpdateOrderStatus_publisher w p₂ id status
    exact ⟨h1.1.trans h2.1.symm, h1.2.trans h2.2.symm⟩
  · have h1 := CancelOrder_publisher w p₁ id
    have h2 := CancelOrder_publisher w p₂ id
    exact ⟨h1.1.trans h2.1.symm, h1.2.trans h2.2.symm⟩
  · have h1 := (CreateOrder_publisher w p₁ req).2
    have h2 := (CreateOrder_publisher w p₂ req).2
    rw [GetOrderByID_eq, GetOrderByID_eq]
    show (match (orderRepository.GetByID
        (orderService.CreateOrder { w with publisher := p₁ } req).2.db id).1 with
      | .error err => Except.error ("pedido não encontrado: " ++ err)
      | .ok order => Except.ok order.ToResponse) =
      (match (orderRepository.GetByID
        (orderService.CreateOrder { w with publisher := p₂ } req).2.db id).1 with
      | .error err => Except.error ("pedido não encontrado: " ++ err)
      | .ok order => Except.ok order.ToResponse)
    rw [h1, h2]
  · intro hne hcreate
    have hf := (storeCreateSucceeds_iff w req).mp hcreate
    have heq := CreateOrder_eq w req hne
    rw [hf] at heq
    simp only [] at heq
    have hread : asRead (created w req) = created w req := by
      unfold asRead
      rw [created_Items_filter]
    refine ⟨(created w req).ToResponse, created w req, by rw [heq], rfl, ?_, ?_, ?_, ?_, ?_, ?_⟩
    · rw [heq]
      exact row_insert_created w req
    · rw [hread]
    · rw [hread]
    · rw [hread]
    · rw [hread]
    · rw [heq, hread]
      intro hfault
      rw [GetOrderByID_eq]
      show (match (orderRepository.GetByID (w.db.next.2.insert (created w req))
        (created w req).ID).1 with
        | .error err => Except.error ("pedido não encontrado: " ++ err)
        | .ok order => Except.ok order.ToResponse) = _
      rw [GetByID_created w req hfault]

/-- C8 (amended) in a world whose publisher fails: the order of the sample
request is returned, and the following `GetOrderByID` returns the stored order
with its id, customer and status. -/
theorem C8_publish_outcome_amended_witness :
    (orderService.publishOrderCreatedEvent (worldWith [] [] [some "broker unavailable"]).publisher
      (created (worldWith [] [] [some "broker unavailable"]) sampleRequest)).2
        = some "broker unavailable" ∧
    ∃ resp o,
      (orderService.CreateOrder (worldWith [] [] [some "broker unavailable"]) sampleRequest).1
        = .ok resp ∧
      (asRead o).ToResponse.ID = resp.ID ∧
      (asRead o).ToResponse.CustomerID = resp.CustomerID ∧
      (asRead o).ToResponse.Status = resp.Status ∧
      (orderService.GetOrderByID
        (orderService.CreateOrder (worldWith [] [] [some "broker unavailable"]) sampleRequest).2
        resp.ID).1 = .ok (asRead o).ToResponse :=
  ⟨by decide!,
    match (C8_publish_outcome_amended (worldWith [] [] [some "broker unavailable"])
        { handed := [], outcomes := [] } { handed := [], outcomes := [some "down"] }
        sampleRequest 1 StatusPaid).2.2.2.2 (by decide) (by decide!) with
    | ⟨resp, o, h1, _, _, h2, h3, h4, _, h5⟩ => ⟨resp, o, h1, h2, h3, h4, h5 (by decide!)⟩⟩

/-! ## The effect of a status change -/

theorem publishOrderStatusChangedEvent_handed {F : Type} (p : Publisher F) (now id : Nat)
    (oldStatus newStatus : OrderStatus) :
    (orderService.publishOrderStatusChangedEvent p now id oldStatus newStatus).1.handed =
      p.handed ++
        [{ eventType := "status_changed", orderID := id,
           data := [("order_id", .uint id),
                    ("old_status", .status oldStatus),
                    ("new_status", .status newStatus),
                    ("changed_at", .time now)] }] := by
  unfold orderService.publishOrderStatusChangedEvent
  exact PublishOrderEvent_handed _ _ _ _

/-- C9: for every stored order with status `old` and every requested status
`new` such that the transition from `old` to `new` is allowed and the store's
`UpdateStatus` succeeds, `UpdateOrderStatus id new` sets the stored status of
that order to `new` and leaves its items and total as they were, leaves every
other stored order unchanged, and hands exactly one fact to the publisher, of
kind "status_changed" and for that order id, whose payload carries `old_status =
old` and `new_status = new`. -/
theorem C9_UpdateOrderStatus_effect {F : Type} (w : World F) (id : Nat) (new : OrderStatus)
    (order : Order F)
    (hget : (orderRepository.GetByID w.db id).1 = .ok order)
    (hallowed : isValidStatusTransition order.Status new = true)
    (hupdate : storeUpdateStatusSucceeds w id new) :
    (∃ o, w.db.row id = some o ∧ o.Status = order.Status ∧
      (orderService.UpdateOrderStatus w id new).2.db.row id
        = some { o with Status := new, UpdatedAt := w.now }) ∧
    (orderService.UpdateOrderStatus w id new).2.db.orders =
      w.db.orders.map (fun o =>
        if o.ID = id ∧ o.DeletedAt = none then { o with Status := new, UpdatedAt := w.now }
        else o) ∧
    (∀ id', id' ≠ id →
      (orderService.UpdateOrderStatus w id new).2.db.row id' = w.db.row id') ∧
    (orderService.UpdateOrderStatus w id new).2.publisher.handed =
      w.publisher.handed ++
        [{ eventType := "status_changed", orderID := id,
           data := [("order_id", .uint id),
                    ("old_status", .status order.Status),
                    ("new_status", .status new),
                    ("changed_at", .time w.now)] }] := by
  have h1 := (storeUpdateStatusSucceeds_iff w id new).mp hupdate
  have heq := UpdateOrderStatus_written w id new order hget hallowed h1
  obtain ⟨_, ⟨o, hrow, ho⟩, _⟩ := GetByID_ok hget
  have hdb : (orderService.UpdateOrderStatus w id new).2.db
      = w.db.next.2.next.2.next.2.withStatus w.now id new := by rw [heq]
  refine ⟨⟨o, hrow, by rw [ho], ?_⟩, ?_, ?_, ?_⟩
  · rw [hdb, DB.withStatus_row, DB.next_row, DB.next_row, DB.next_row, hrow, Option.map_some',
      DB.row_setStatus hrow]
  · rw [hdb]
    show w.db.next.2.next.2.next.2.orders.map (setStatus w.now id new) = _
    rw [DB.next_orders, DB.next_orders, DB.next_orders]
    apply List.map_congr_left
    intro a _
    unfold setStatus
    by_cases hc : a.ID = id ∧ a.DeletedAt = none
    · rw [if_pos hc]
      have : (a.ID == id && a.DeletedAt.isNone) = true := by simp [hc.1, hc.2]
      rw [if_pos this]
    · rw [if_neg hc]
      have : ¬ (a.ID == id && a.DeletedAt.isNone) = true := by
        intro h
        simp only [Bool.and_eq_true, beq_iff_eq, Option.isNone_iff_eq_none] at h
        exact hc h
      rw [if_neg this]
  · intro id' hne
    rw [hdb, DB.withStatus_row, DB.next_row, DB.next_row, DB.next_row]
    cases hr : w.db.row id' with
    | none => rfl
    | some o' =>
      have hid : o'.ID ≠ id := by rw [DB.row_ID hr]; exact hne
      rw [Option.map_some', setStatus_of_ne hid]
  · rw [heq]
    exact publishOrderStatusChangedEvent_handed _ _ _ _ _

/-- C9 at the stored order 1 with status pending and the requested status
confirmed, next to a stored order 2, in a world where no call fails. -/
theorem C9_UpdateOrderStatus_effect_witness :
    ((orderService.UpdateOrderStatus
        (worldOf [sampleOrder 1 "pending", sampleOrder 2 "paid"]) 1 "confirmed").2.db.orders.map
      fun o => (o.ID, o.Status, o.TotalAmount)) = [(1, "confirmed", 20), (2, "paid", 20)] ∧
    (orderService.UpdateOrderStatus
        (worldOf [sampleOrder 1 "pending", sampleOrder 2 "paid"]) 1 "confirmed").2.publisher.handed
      = [{ eventType := "status_changed", orderID := 1,
           data := [("order_id", .uint 1),
                    ("old_status", .status "pending"),
                    ("new_status", .status "confirmed"),
                    ("changed_at", .time 9)] }] :=
  ⟨by decide,
    (C9_UpdateOrderStatus_effect (worldOf [sampleOrder 1 "pending", sampleOrder 2 "paid"]) 1
      "confirmed" (sampleOrder 1 "pending") (by decide) (by decide) (by decide)).2.2.2⟩

/-! ## Reading back -/

section ReadLemmas
variable {F : Type}

theorem ToResponse_totalsConsistent_iff [Float64 F] (o : Order F) :
    o.ToResponse.totalsConsistent ↔ o.totalsConsistent := by
  refine ⟨?_, ToResponse_totalsConsistent o⟩
  rintro ⟨h1, h2⟩
  constructor
  · intro item hitem
    exact h1 (itemResponse item) (List.mem_map_of_mem _ hitem)
  · have e : o.ToResponse.Items.map (fun item => item.Subtotal)
        = o.Items.map fun item => item.Subtotal := by
      show (o.Items.map _).map _ = _
      rw [List.map_map]; rfl
    rw [e] at h2; exact h2

theorem DB.Find_mem (db : DB F) (customerID : Nat) (limit offset : Int)
    (orders : List (Order F)) (h : (db.Find customerID limit offset).1 = .ok orders) :
    ∀ order ∈ orders, ∃ o ∈ db.orders, order = asRead o := by
  unfold DB.Find at h
  rw [DB.next_eq] at h
  cases hf : db.fault 0 with
  | some e => rw [hf] at h; simp at h
  | none =>
    rw [hf] at h
    simp only [DB.next_orders, Except.ok.injEq] at h
    intro order horder
    rw [← h] at horder
    have h1 : order ∈ (List.map
        (fun o => ({ o with Items := o.Items.filter fun i => i.DeletedAt.isNone } : Order F))
        (List.filter (fun o => o.CustomerID == customerID && o.DeletedAt.isNone)
          db.orders)).insertionSort (fun a b => b.CreatedAt ≤ a.CreatedAt) := by
      split at horder
      · have h2 := List.mem_of_mem_take horder
        split at h2
        · exact List.mem_of_mem_drop h2
        · exact h2
      · split at horder
        · exact List.mem_of_mem_drop horder
        · exact horder
    rw [(List.perm_insertionSort _ _).mem_iff] at h1
    obtain ⟨o, ho, hoo⟩ := List.mem_map.mp h1
    exact ⟨o, (List.mem_filter.mp ho).1, hoo.symm⟩

end ReadLemmas

/-- C10, as stated, fails: the stored order 1 has price 10 and quantity 2 with
stored subtotal 999 and stored total 7; `GetOrderByID` and `GetOrdersByCustomer`
return it with subtotal 999 and total 7. -/
theorem C10_read_back_counterexample :
    ((orderService.GetOrderByID (worldOf [driftedOrder]) 1).1.toOption.map fun r =>
        (r.TotalAmount, r.Items.map fun i => (i.Price, i.Quantity, i.Subtotal)))
      = some (7, [(10, 2, 999)]) ∧
    ((orderService.GetOrdersByCustomer (worldOf [driftedOrder]) 42 10 0).1.toOption.map fun rs =>
        rs.map fun r => (r.TotalAmount, r.Items.map fun i => (i.Price, i.Quantity, i.Subtotal)))
      = some [(7, [(10, 2, 999)])] ∧
    ¬ ((10 : Rat) * 2 = 999) ∧
    (∀ r, (orderService.GetOrderByID (worldOf [driftedOrder]) 1).1 = .ok r →
      ¬ r.totalsConsistent) := by
  refine ⟨by decide, by decide, by norm_num, ?_⟩
  intro r hr
  have h : (orderService.GetOrderByID (worldOf [driftedOrder]) 1).1
      = .ok driftedOrder.ToResponse := by decide
  rw [h] at hr
  simp only [Except.ok.injEq] at hr
  subst hr
  decide!

/-- C10 (amended): totals are not recomputed when an order is read back from
storage.  The order returned by `GetOrderByID`, and each order returned by
`GetOrdersByCustomer`, carries the stored `Subtotal` and `TotalAmount` values as
they are: its totals agree with its items (every item `Subtotal` equal to `Price`
times `Quantity`, `TotalAmount` equal to the sum of the item `Subtotal`s) exactly
when the stored values do. -/
theorem C10_read_back_amended {F : Type} [Float64 F] (w : World F) (id customerID : Nat)
    (limit offset : Int) :
    (∀ order, (orderRepository.GetByID w.db id).1 = .ok order →
      (∃ o, w.db.row id = some o ∧ order = asRead o) ∧
      (orderService.GetOrderByID w id).1 = .ok order.ToResponse ∧
      order.ToResponse.TotalAmount = order.TotalAmount ∧
      (order.ToResponse.Items.map fun i => i.Subtotal) = (order.Items.map fun i => i.Subtotal) ∧
      (order.ToResponse.totalsConsistent ↔ order.totalsConsistent)) ∧
    (∀ resps, (orderService.GetOrdersByCustomer w customerID limit offset).1 = .ok resps →
      ∀ resp ∈ resps, ∃ o ∈ w.db.orders,
        resp = (asRead o).ToResponse ∧
        resp.TotalAmount = o.TotalAmount ∧
        (resp.totalsConsistent ↔ (asRead o).totalsConsistent)) := by
  constructor
  · intro order hget
    obtain ⟨_, ⟨o, hrow, ho⟩, _⟩ := GetByID_ok hget
    refine ⟨⟨o, hrow, ho⟩, ?_, rfl, ?_, ToResponse_totalsConsistent_iff order⟩
    · rw [GetOrderByID_eq, hget]
    · show (order.Items.map _).map _ = _
      rw [List.map_map]; rfl
  · intro resps hresps resp hresp
    unfold orderService.GetOrdersByCustomer orderRepository.GetByCustomerID at hresps
    rcases hfind : w.db.Find customerID limit offset with ⟨r, db⟩
    rw [hfind] at hresps
    cases r with
    | error e => simp at hresps
    | ok orders =>
      simp only [Except.ok.injEq] at hresps
      rw [← hresps] at hresp
      obtain ⟨order, horder, hor⟩ := List.mem_map.mp hresp
      have hfind1 : (w.db.Find customerID limit offset).1 = .ok orders := by rw [hfind]
      obtain ⟨o, ho, hoo⟩ := DB.Find_mem w.db customerID limit offset orders hfind1 order horder
      subst hoo
      subst hor
      exact ⟨o, ho, rfl, rfl, ToResponse_totalsConsistent_iff _⟩

/-- C10 (amended) at the stored order 1, whose stored subtotal 20 and stored
total 20 agree with its price 10 and quantity 2: read back, its totals agree
with its items. -/
theorem C10_read_back_amended_witness :
    (orderService.GetOrderByID (worldOf [sampleOrder 1 "pending"]) 1).1
      = .ok (sampleOrder 1 "pending").ToResponse ∧
    (sampleOrder 1 "pending").ToResponse.totalsConsistent :=
  have h := (C10_read_back_amended (worldOf [sampleOrder 1 "pending"]) 1 42 10 0).1
    (sampleOrder 1 "pending") (by decide)
  ⟨h.2.1, h.2.2.2.2.mpr (by decide!)⟩

/-! ## Publishing an envelope -/

/-- C11, as stated, fails: for the kind `created` and the order 7 the type field
of the envelope is `created`, not `order.created` (only the routing key has the
prefix); and for the order id `2 ^ 63` the `order_id` of the envelope is
`-2 ^ 63`. -/
theorem C11_PublishOrderEvent_counterexample :
    (publisher.envelope "created" 7 (0 : Nat)).Type_ = "created" ∧
    (publisher.envelope "created" 7 (0 : Nat)).Type_ ≠ "order." ++ "created" ∧
    ((publisher.PublishOrderEvent sampleMarshal samplePublisher "created" 7 0).1.channel.published.map
      fun call => (call.key, call.msg.Body)) = [("order.created", "type=created")] ∧
    (publisher.envelope "created" (2 ^ 63) (0 : Nat)).OrderID = -9223372036854775808 := by
  refine ⟨rfl, by decide, by decide, by decide!⟩

/-- C11 (amended): for every fact kind `k` (so for created, status_changed and
cancelled), order id and payload, `PublishOrderEvent k id payload` builds an
envelope whose type field is `k` itself, whose `order_id` is `int(id)`, which is
`id` for every `id` below `2 ^ 63`, and whose data is the payload; when the
envelope is serialised, it makes exactly one call of `channel.Publish`, on the
configured exchange, with routing key `"order."` followed by `k` and the
serialised envelope as body; when the serialisation fails, nothing is published
and the error is returned. -/
theorem C11_PublishOrderEvent_amended {δ : Type} (marshal : OrderEvent δ → Except String String)
    (p : publisher) (k : String) (id : Nat) (payload : δ) :
    (publisher.envelope k id payload).Type_ = k ∧
    (id < 2 ^ 63 → (publisher.envelope k id payload).OrderID = (id : Int)) ∧
    (publisher.envelope k id payload).Data = payload ∧
    (∀ body, marshal (publisher.envelope k id payload) = .ok body →
      (publisher.PublishOrderEvent marshal p k id payload).1.channel.published =
        p.channel.published ++
          [{ exchange := p.config.Exchange
             key := "order." ++ k
             mandatory := false
             immediate := false
             msg :=
               { ContentType := "application/json"
                 DeliveryMode := amqpPersistent
                 Body := body
                 Headers := [("event_type", .str k), ("order_id", .int (intOfUint id))] } }]) ∧
    (∀ err, marshal (publisher.envelope k id payload) = .error err →
      publisher.PublishOrderEvent marshal p k id payload
        = (p, some ("failed to marshal event: " ++ err))) := by
  refine ⟨rfl, ?_, rfl, ?_, ?_⟩
  · intro hid
    show intOfUint id = (id : Int)
    unfold intOfUint
    have hmod : id % 2 ^ 64 = id := Nat.mod_eq_of_lt (by omega)
    rw [hmod, if_pos hid]
  · intro body hbody
    unfold publisher.PublishOrderEvent
    simp only [hbody, Channel.Publish]
    cases p.channel.outcomes with
    | nil => rfl
    | cons e rest => cases e <;> rfl
  · intro err herr
    unfold publisher.PublishOrderEvent
    simp only [herr]

/-- C11 (amended) at the kind `status_changed`, the order 7 and the payload 0. -/
theorem C11_PublishOrderEvent_amended_witness :
    (publisher.envelope "status_changed" 7 (0 : Nat)).OrderID = 7 ∧
    (publisher.PublishOrderEvent sampleMarshal samplePublisher "status_changed" 7 0).1.channel.published =
      [{ exchange := "orders_exchange"
         key := "order.status_changed"
         mandatory := false
         immediate := false
         msg :=
           { ContentType := "application/json"
             DeliveryMode := 2
             Body := "type=status_changed"
             Headers := [("event_type", .str "status_changed"), ("order_id", .int 7)] } }] :=
  have h := C11_PublishOrderEvent_amended sampleMarshal samplePublisher "status_changed" 7 0
  ⟨h.2.1 (by decide), h.2.2.2.1 "type=status_changed" (by decide)⟩

/-! ## The messages of rejected status changes -/

theorem mentions_of_eq {msg part : String} (before after : String)
    (h : msg = before ++ part ++ after) : mentions msg part := by
  unfold mentions
  refine ⟨before.data, after.data, ?_⟩
  rw [h, String.data_append, String.data_append]

/-- C12, as stated, fails: `CancelOrder` on the stored order 1 with status paid
is rejected with a message that contains the current status paid but not the
requested status cancelled. -/
theorem C12_rejection_messages_counterexample :
    (orderService.CancelOrder (worldOf [sampleOrder 1 "paid"]) 1).1
      = some "não é possível cancelar pedido com status: paid" ∧
    mentions "não é possível cancelar pedido com status: paid" "paid" ∧
    ¬ mentions "não é possível cancelar pedido com status: paid" StatusCancelled := by
  refine ⟨by decide, by decide, by decide⟩

/-- C12 (amended): whenever `UpdateOrderStatus` rejects a request because the
lifecycle does not allow it, the error message contains both the order's current
status and the requested status; whenever `CancelOrder` rejects a request because
the order is neither pending nor confirmed, the error message contains the
order's current status and names the cancellation in words ("cancelar"), it does
not carry the status value cancelled. -/
theorem C12_rejection_messages_amended {F : Type} (w : World F) (id : Nat) (order : Order F)
    (hget : (orderRepository.GetByID w.db id).1 = .ok order) :
    (∀ status, isValidStatusTransition order.Status status = false →
      (orderService.UpdateOrderStatus w id status).1
        = .error ("transição de status inválida: " ++ order.Status ++ " -> " ++ status) ∧
      mentions ("transição de status inválida: " ++ order.Status ++ " -> " ++ status)
        order.Status ∧
      mentions ("transição de status inválida: " ++ order.Status ++ " -> " ++ status) status) ∧
    (order.Status ≠ StatusPending → order.Status ≠ StatusConfirmed →
      (orderService.CancelOrder w id).1
        = some ("não é possível cancelar pedido com status: " ++ order.Status) ∧
      mentions ("não é possível cancelar pedido com status: " ++ order.Status) order.Status ∧
      mentions ("não é possível cancelar pedido com status: " ++ order.Status) "cancelar") := by
  constructor
  · intro status hinvalid
    refine ⟨?_, ?_, ?_⟩
    · rw [UpdateOrderStatus_eq w id status order hget, hinvalid]
      rfl
    · exact mentions_of_eq "transição de status inválida: " (" -> " ++ status)
        (by simp [String.append_assoc])
    · exact mentions_of_eq ("transição de status inválida: " ++ order.Status ++ " -> ") ""
        (by simp)
  · intro hp hc
    refine ⟨?_, ?_, ?_⟩
    · rw [CancelOrder_eq w id order hget]
      have : (order.Status != StatusPending && order.Status != StatusConfirmed) = true := by
        simp [hp, hc]
      rw [if_pos this]
    · exact mentions_of_eq "não é possível cancelar pedido com status: " "" (by simp)
    · exact mentions_of_eq "não é possível " (" pedido com status: " ++ order.Status)
        (by rw [← String.append_assoc]; rfl)

/-- C12 (amended) at the stored order 1 with status delivered: the update to
pending and the cancellation are rejected with these messages. -/
theorem C12_rejection_messages_amended_witness :
    (orderService.UpdateOrderStatus (worldOf [sampleOrder 1 "delivered"]) 1 "pending").1
      = .error "transição de status inválida: delivered -> pending" ∧
    (orderService.CancelOrder (worldOf [sampleOrder 1 "delivered"]) 1).1
      = some "não é possível cancelar pedido com status: delivered" :=
  have h := C12_rejection_messages_amended (worldOf [sampleOrder 1 "delivered"]) 1
    (sampleOrder 1 "delivered") (by decide)
  ⟨(h.1 "pending" (by decide)).1, (h.2 (by decide) (by decide)).1⟩

/-! ## Consuming a delivery -/

theorem receive_settled_fst {σ δ : Type} (unmarshal : String → Except String (OrderEvent δ))
    (handler : OrderEvent δ → σ → Option String × σ) (l : Listener σ δ) (msg : Delivery) :
    (consumer.receive unmarshal handler l msg).settled.map Prod.fst
      = l.settled.map Prod.fst ++ [msg] := by
  unfold consumer.receive consumer.processMessage
  cases unmarshal msg.Body with
  | error err => simp
  | ok event =>
    rcases hh : handler event l.state with ⟨err, state⟩
    cases err <;> simp [hh]

theorem listen_settled_fst {σ δ : Type} (unmarshal : String → Except String (OrderEvent δ))
    (handler : OrderEvent δ → σ → Option String × σ) (msgs : List Delivery) :
    ∀ l : Listener σ δ, (consumer.listen unmarshal handler l msgs).settled.map Prod.fst
      = l.settled.map Prod.fst ++ msgs := by
  induction msgs with
  | nil => intro l; simp [consumer.listen]
  | cons msg rest ih =>
    intro l
    have h := ih (consumer.receive unmarshal handler l msg)
    unfold consumer.listen at h ⊢
    rw [List.foldl_cons, h, receive_settled_fst]
    simp

/-- C13: for every received message and handler, the consumer takes exactly one
terminal action on the message: it acknowledges it if and only if the body
decodes into an `OrderEvent` and the handler applied to that event returns no
error; otherwise it negatively acknowledges it with requeue set.  When the
decoding fails the handler is not invoked; when it succeeds the handler is
invoked once, on the decoded event. -/
theorem C13_consumer_settles_once {σ δ : Type}
    (unmarshal : String → Except String (OrderEvent δ))
    (handler : OrderEvent δ → σ → Option String × σ) (l : Listener σ δ) (msg : Delivery) :
    (∃ action, (consumer.receive unmarshal handler l msg).settled = l.settled ++ [(msg, action)] ∧
      (action = .Ack false ∨ action = .Nack false true) ∧
      (action = .Ack false ↔
        ∃ event, unmarshal msg.Body = .ok event ∧ (handler event l.state).1 = none)) ∧
    (∀ err, unmarshal msg.Body = .error err →
      (consumer.receive unmarshal handler l msg).settled = l.settled ++ [(msg, .Nack false true)] ∧
      (consumer.receive unmarshal handler l msg).invoked = l.invoked ∧
      (consumer.receive unmarshal handler l msg).state = l.state) ∧
    (∀ event, unmarshal msg.Body = .ok event →
      (consumer.receive unmarshal handler l msg).invoked = l.invoked ++ [event] ∧
      (consumer.receive unmarshal handler l msg).state = (handler event l.state).2 ∧
      ((handler event l.state).1 ≠ none →
        (consumer.receive unmarshal handler l msg).settled
          = l.settled ++ [(msg, .Nack false true)])) ∧
    (∀ msgs, (consumer.listen unmarshal handler l msgs).settled.map Prod.fst
      = l.settled.map Prod.fst ++ msgs) := by
  have h :
      (∃ action, (consumer.receive unmarshal handler l msg).settled = l.settled ++ [(msg, action)] ∧
        (action = .Ack false ∨ action = .Nack false true) ∧
        (action = .Ack false ↔
          ∃ event, unmarshal msg.Body = .ok event ∧ (handler event l.state).1 = none)) ∧
      (∀ err, unmarshal msg.Body = .error err →
        (consumer.receive unmarshal handler l msg).settled = l.settled ++ [(msg, .Nack false true)] ∧
        (consumer.receive unmarshal handler l msg).invoked = l.invoked ∧
        (consumer.receive unmarshal handler l msg).state = l.state) ∧
      (∀ event, unmarshal msg.Body = .ok event →
        (consumer.receive unmarshal handler l msg).invoked = l.invoked ++ [event] ∧
        (consumer.receive unmarshal handler l msg).state = (handler event l.state).2 ∧
        ((handler event l.state).1 ≠ none →
          (consumer.receive unmarshal handler l msg).settled
            = l.settled ++ [(msg, .Nack false true)])) := by
    unfold consumer.receive consumer.processMessage
    cases hu : unmarshal msg.Body with
    | error err =>
      refine ⟨⟨.Nack false true, rfl, Or.inr rfl, ?_⟩, ?_, ?_⟩
      · constructor
        · intro h; cases h
        · rintro ⟨event, he, _⟩; cases he
      · intro err' _; exact ⟨rfl, rfl, rfl⟩
      · intro event he; cases he
    | ok event =>
      rcases hh : handler event l.state with ⟨err, state⟩
      cases err with
      | none =>
        refine ⟨⟨.Ack false, by simp [hh], Or.inl rfl, ?_⟩, ?_, ?_⟩
        · constructor
          · intro _; exact ⟨event, rfl, by rw [hh]⟩
          · intro _; rfl
        · intro err' he; cases he
        · intro event' he
          cases he
          simp [hh]
      | some e =>
        refine ⟨⟨.Nack false true, by simp [hh], Or.inr rfl, ?_⟩, ?_, ?_⟩
        · constructor
          · intro h; cases h
          · rintro ⟨event', he, hn⟩
            cases he
            rw [hh] at hn
            cases hn
        · intro err' he; cases he
        · intro event' he
          cases he
          simp [hh]
  exact ⟨h.1, h.2.1, h.2.2, fun msgs => listen_settled_fst unmarshal handler msgs l⟩

/-- C13 at three deliveries: a body that decodes and is accepted, a body that
does not decode, and the first body again with a handler that refuses it. -/
theorem C13_consumer_settles_once_witness :
    (consumer.receive sampleUnmarshal sampleHandler sampleListener { Body := "created" }).settled
      = [({ Body := "created" }, .Ack false)] ∧
    (consumer.receive sampleUnmarshal sampleHandler sampleListener { Body := "\x7b" }).settled
      = [({ Body := "\x7b" }, .Nack false true)] ∧
    (consumer.receive sampleUnmarshal sampleHandler sampleListener { Body := "\x7b" }).invoked
      = [] ∧
    (consumer.receive sampleUnmarshal (fun _ s => (some "busy", s)) sampleListener
        { Body := "created" }).settled
      = [({ Body := "created" }, .Nack false true)] :=
  have h1 := (C13_consumer_settles_once sampleUnmarshal sampleHandler sampleListener
    { Body := "\x7b" }).2.1 "invalid character" (by decide)
  have h2 := ((C13_consumer_settles_once sampleUnmarshal (fun _ s => (some "busy", s))
    sampleListener { Body := "created" }).2.2.1 { Type_ := "created", OrderID := 7, Data := 0 }
      (by decide)).2.2 (by decide)
  ⟨by decide, h1.1, h1.2.1, h2⟩

/-! ## Rejected status changes -/

section RejectLemmas
variable {F : Type}

theorem DB.next_outcomes (db : DB F) : db.next.2.outcomes = db.outcomes.tail := by
  unfold DB.next
  cases h : db.outcomes <;> simp [h]

theorem onlyRead_next (w : World F) : onlyRead w { w with db := w.db.next.2 } :=
  ⟨DB.next_orders w.db, DB.next_outcomes w.db, rfl, rfl⟩

theorem UpdateOrderStatus_of_error (w : World F) (id : Nat) (status : OrderStatus) (e : String)
    (hget : (orderRepository.GetByID w.db id).1 = .error e) :
    orderService.UpdateOrderStatus w id status =
      (.error ("pedido não encontrado: " ++ e), { w with db := w.db.next.2 }) := by
  unfold orderService.UpdateOrderStatus
  have hs := GetByID_snd w.db id
  rcases hp : orderRepository.GetByID w.db id with ⟨r, db⟩
  rw [hp] at hget hs
  simp only at hget hs
  subst hget
  subst hs
  rfl

theorem CancelOrder_of_error (w : World F) (id : Nat) (e : String)
    (hget : (orderRepository.GetByID w.db id).1 = .error e) :
    orderService.CancelOrder w id =
      (some ("pedido não encontrado: " ++ e), { w with db := w.db.next.2 }) := by
  unfold orderService.CancelOrder
  have hs := GetByID_snd w.db id
  rcases hp : orderRepository.GetByID w.db id with ⟨r, db⟩
  rw [hp] at hget hs
  simp only at hget hs
  subst hget
  subst hs
  rfl

theorem UpdateOrderStatus_of_invalid (w : World F) (id : Nat) (status : OrderStatus)
    (order : Order F) (hget : (orderRepository.GetByID w.db id).1 = .ok order)
    (hinvalid : isValidStatusTransition order.Status status = false) :
    orderService.UpdateOrderStatus w id status =
      (.error ("transição de status inválida: " ++ order.Status ++ " -> " ++ status),
        { w with db := w.db.next.2 }) := by
  rw [UpdateOrderStatus_eq w id status order hget, hinvalid]
  rfl

theorem CancelOrder_of_invalid (w : World F) (id : Nat) (order : Order F)
    (hget : (orderRepository.GetByID w.db id).1 = .ok order)
    (hp : order.Status ≠ StatusPending) (hc : order.Status ≠ StatusConfirmed) :
    orderService.CancelOrder w id =
      (some ("não é possível cancelar pedido com status: " ++ order.Status),
        { w with db := w.db.next.2 }) := by
  rw [CancelOrder_eq w id order hget]
  have : (order.Status != StatusPending && order.Status != StatusConfirmed) = true := by
    simp [hp, hc]
  rw [if_pos this]

end RejectLemmas

/-- C14: a rejected status change is atomic.  Whenever `UpdateOrderStatus` or
`CancelOrder` returns an error because the order is not found (the store's
`GetByID` returns an error) or because the transition is not allowed, the store
has executed the read and nothing else: its `UpdateStatus` is not called, every
stored order, its status included, is unchanged, and no fact is handed to the
publisher. -/
theorem C14_rejected_change_atomic {F : Type} (w : World F) (id : Nat) (status : OrderStatus) :
    (∀ e, (orderRepository.GetByID w.db id).1 = .error e →
      (orderService.UpdateOrderStatus w id status).1 = .error ("pedido não encontrado: " ++ e) ∧
      onlyRead w (orderService.UpdateOrderStatus w id status).2 ∧
      (orderService.CancelOrder w id).1 = some ("pedido não encontrado: " ++ e) ∧
      onlyRead w (orderService.CancelOrder w id).2) ∧
    (∀ order, (orderRepository.GetByID w.db id).1 = .ok order →
      (isValidStatusTransition order.Status status = false →
        (orderService.UpdateOrderStatus w id status).1
          = .error ("transição de status inválida: " ++ order.Status ++ " -> " ++ status) ∧
        onlyRead w (orderService.UpdateOrderStatus w id status).2) ∧
      (order.Status ≠ StatusPending → order.Status ≠ StatusConfirmed →
        (orderService.CancelOrder w id).1
          = some ("não é possível cancelar pedido com status: " ++ order.Status) ∧
        onlyRead w (orderService.CancelOrder w id).2)) := by
  constructor
  · intro e hget
    rw [UpdateOrderStatus_of_error w id status e hget, CancelOrder_of_error w id e hget]
    exact ⟨rfl, onlyRead_next w, rfl, onlyRead_next w⟩
  · intro order hget
    constructor
    · intro hinvalid
      rw [UpdateOrderStatus_of_invalid w id status order hget hinvalid]
      exact ⟨rfl, onlyRead_next w⟩
    · intro hp hc
      rw [CancelOrder_of_invalid w id order hget hp hc]
      exact ⟨rfl, onlyRead_next w⟩

/-- C14 at the stored order 1 with status delivered and at the order 99, which is
not stored, in a world whose store would fail at a second statement. -/
theorem C14_rejected_change_atomic_witness :
    (orderService.UpdateOrderStatus
        (worldWith [sampleOrder 1 "delivered"] [none, some "connection lost"] []) 1 "pending").2
      = { worldWith [sampleOrder 1 "delivered"] [none, some "connection lost"] [] with
          db := { orders := [sampleOrder 1 "delivered"], outcomes := [some "connection lost"] } } ∧
    onlyRead (worldWith [sampleOrder 1 "delivered"] [none, some "connection lost"] [])
      (orderService.CancelOrder
        (worldWith [sampleOrder 1 "delivered"] [none, some "connection lost"] []) 99).2 :=
  ⟨by decide,
    ((C14_rejected_change_atomic
      (worldWith [sampleOrder 1 "delivered"] [none, some "connection lost"] []) 99 "paid").1
      "record not found" (by decide)).2.2.2⟩

/-! ## The lifecycle has no cycles -/

theorem rank_le (s : OrderStatus) : rank s ≤ 4 := by
  unfold rank
  split_ifs <;> omega

theorem rank_lt_of_valid {s s' : OrderStatus} (h : isValidStatusTransition s s' = true) :
    rank s < rank s' := by
  rw [isValidStatusTransition_iff] at h
  simp only [allowedPairs, List.mem_cons, Prod.mk.injEq, List.mem_singleton, List.not_mem_nil,
    or_false] at h
  rcases h with ⟨h1, h2⟩ | ⟨h1, h2⟩ | ⟨h1, h2⟩ | ⟨h1, h2⟩ | ⟨h1, h2⟩ | ⟨h1, h2⟩ <;>
    subst h1 <;> subst h2 <;> decide

theorem ne_failed_of_valid {s s' : OrderStatus} (h : isValidStatusTransition s s' = true) :
    s' ≠ StatusFailed := by
  rw [isValidStatusTransition_iff] at h
  simp only [allowedPairs, List.mem_cons, Prod.mk.injEq, List.mem_singleton, List.not_mem_nil,
    or_false] at h
  rcases h with ⟨_, h2⟩ | ⟨_, h2⟩ | ⟨_, h2⟩ | ⟨_, h2⟩ | ⟨_, h2⟩ | ⟨_, h2⟩ <;>
    subst h2 <;> decide

theorem chain_length_add_rank :
    ∀ (l : List OrderStatus) (s : OrderStatus),
      List.Chain' (fun a b => isValidStatusTransition a b = true) (s :: l) →
        (s :: l).length + rank s ≤ 5 := by
  intro l
  induction l with
  | nil => intro s _; have := rank_le s; simp; omega
  | cons b t ih =>
    intro s h
    rw [List.chain'_cons] at h
    have h1 := ih b h.2
    have h2 := rank_lt_of_valid h.1
    simp only [List.length_cons] at h1 ⊢
    omega

theorem chain_nodup (l : List OrderStatus)
    (h : List.Chain' (fun a b => isValidStatusTransition a b = true) l) : l.Nodup := by
  have h1 : List.Chain' (fun a b => rank a < rank b) l := h.imp fun _ _ => rank_lt_of_valid
  have h2 : List.Chain' (· < ·) (l.map rank) := (List.chain'_map rank).mpr h1
  have h3 : List.Pairwise (· < ·) (l.map rank) := List.chain'_iff_pairwise.mp h2
  have h4 : (l.map rank).Nodup := h3.imp fun hlt => Nat.ne_of_lt hlt
  exact List.Nodup.of_map rank h4

section RunLemmas
variable {F : Type}

theorem statusOf_of_orders {w w' : World F} (h : w'.db.orders = w.db.orders) (id : Nat) :
    statusOf w' id = statusOf w id := by
  unfold statusOf DB.row
  rw [h]

theorem StatusStep.of_orders {w w' : World F} (h : w'.db.orders = w.db.orders) (id : Nat) :
    StatusStep (statusOf w id) (statusOf w' id) :=
  Or.inl (statusOf_of_orders h id).symm

theorem DB.Find_snd (db : DB F) (customerID : Nat) (limit offset : Int) :
    (db.Find customerID limit offset).2 = db.next.2 := by
  unfold DB.Find
  rw [DB.next_eq]
  cases db.fault 0 <;> rfl

theorem DB.insert_row (db : DB F) (c : Order F) (id : Nat) :
    (db.insert c).row id =
      (db.row id).or (if c.ID == id && c.DeletedAt.isNone then some c else none) := by
  unfold DB.insert DB.row
  simp only [List.find?_append, List.find?_cons, List.find?_nil]
  cases (c.ID == id && c.DeletedAt.isNone) <;> rfl

/-- What an `UpdateOrderStatus` of the order `id'` does to the stored status of
the order `id`. -/
theorem UpdateOrderStatus_step (w : World F) (id' : Nat) (status : OrderStatus) (id : Nat) :
    StatusStep (statusOf w id) (statusOf (orderService.UpdateOrderStatus w id' status).2 id) ∧
    (id' = id → (orderService.UpdateOrderStatus w id' status).1.toOption.isSome = true →
      ∃ s s', statusOf w id = some s ∧
        statusOf (orderService.UpdateOrderStatus w id' status).2 id = some s' ∧
        isValidStatusTransition s s' = true) := by
  cases hg : (orderRepository.GetByID w.db id').1 with
  | error e =>
    rw [UpdateOrderStatus_of_error w id' status e hg]
    exact ⟨StatusStep.of_orders (DB.next_orders w.db) id, fun _ h => by simp [Except.toOption] at h⟩
  | ok order =>
    cases hv : isValidStatusTransition order.Status status with
    | false =>
      rw [UpdateOrderStatus_of_invalid w id' status order hg hv]
      exact ⟨StatusStep.of_orders (DB.next_orders w.db) id,
        fun _ h => by simp [Except.toOption] at h⟩
    | true =>
      cases h1 : w.db.fault 1 with
      | some e =>
        rw [UpdateOrderStatus_eq w id' status order hg, hv, h1]
        refine ⟨StatusStep.of_orders ?_ id, fun _ h => by simp [Except.toOption] at h⟩
        show w.db.next.2.next.2.orders = _
        rw [DB.next_orders, DB.next_orders]
      | none =>
        have heq := UpdateOrderStatus_written w id' status order hg hv h1
        have hst : statusOf (orderService.UpdateOrderStatus w id' status).2 id
            = ((w.db.row id).map (setStatus w.now id' status)).map fun o => o.Status := by
          rw [heq]
          show ((w.db.next.2.next.2.next.2.withStatus w.now id' status).row id).map _ = _
          rw [DB.withStatus_row, DB.next_row, DB.next_row, DB.next_row]
        rw [hst]
        obtain ⟨_, ⟨o', hrow', ho'⟩, _⟩ := GetByID_ok hg
        have hos : order.Status = o'.Status := by rw [ho']
        by_cases hid : id' = id
        · subst hid
          have hs : statusOf w id' = some o'.Status := by
            unfold statusOf; rw [hrow']; rfl
          have hs' : ((w.db.row id').map (setStatus w.now id' status)).map (fun o => o.Status)
              = some status := by
            rw [hrow', Option.map_some', Option.map_some', DB.row_setStatus hrow']
          rw [hs, hs']
          have hvalid : isValidStatusTransition o'.Status status = true := hos ▸ hv
          exact ⟨Or.inr (Or.inr ⟨_, _, rfl, rfl, hvalid⟩), fun _ _ => ⟨_, _, rfl, rfl, hvalid⟩⟩
        · refine ⟨Or.inl ?_, fun h => absurd h hid⟩
          unfold statusOf
          cases hr : w.db.row id with
          | none => rfl
          | some o =>
            have hne : o.ID ≠ id' := by rw [DB.row_ID hr]; exact fun h => hid h.symm
            simp only [Option.map_some', setStatus_of_ne hne]

/-- What a `CancelOrder` of the order `id'` does to the stored status of the
order `id`. -/
theorem CancelOrder_step (w : World F) (id' : Nat) (id : Nat) :
    StatusStep (statusOf w id) (statusOf (orderService.CancelOrder w id').2 id) ∧
    (id' = id → (orderService.CancelOrder w id').1.isNone = true →
      ∃ s s', statusOf w id = some s ∧
        statusOf (orderService.CancelOrder w id').2 id = some s' ∧
        isValidStatusTransition s s' = true) := by
  cases hg : (orderRepository.GetByID w.db id').1 with
  | error e =>
    rw [CancelOrder_of_error w id' e hg]
    exact ⟨StatusStep.of_orders (DB.next_orders w.db) id, fun _ h => by simp at h⟩
  | ok order =>
    by_cases hguard : order.Status = StatusPending ∨ order.Status = StatusConfirmed
    · have hv : isValidStatusTransition order.Status StatusCancelled = true := by
        rcases hguard with h | h <;> rw [h] <;> decide
      have hif : ¬ (order.Status != StatusPending && order.Status != StatusConfirmed) = true := by
        intro h
        simp only [Bool.and_eq_true, bne_iff_ne, ne_eq] at h
        rcases hguard with h' | h'
        · exact h.1 h'
        · exact h.2 h'
      have heq := CancelOrder_eq w id' order hg
      rw [if_neg hif] at heq
      cases h1 : w.db.fault 1 with
      | some e =>
        rw [h1] at heq
        rw [heq]
        refine ⟨StatusStep.of_orders ?_ id, fun _ h => by simp at h⟩
        show w.db.next.2.next.2.orders = _
        rw [DB.next_orders, DB.next_orders]
      | none =>
        rw [h1] at heq
        have hst : statusOf (orderService.CancelOrder w id').2 id
            = ((w.db.row id).map (setStatus w.now id' StatusCancelled)).map fun o => o.Status := by
          rw [heq]
          show ((w.db.next.2.next.2.withStatus w.now id' StatusCancelled).row id).map _ = _
          rw [DB.withStatus_row, DB.next_row, DB.next_row]
        rw [hst]
        obtain ⟨_, ⟨o', hrow', ho'⟩, _⟩ := GetByID_ok hg
        have hos : order.Status = o'.Status := by rw [ho']
        by_cases hid : id' = id
        · subst hid
          have hs : statusOf w id' = some o'.Status := by
            unfold statusOf; rw [hrow']; rfl
          have hs' : ((w.db.row id').map (setStatus w.now id' StatusCancelled)).map
              (fun o => o.Status) = some StatusCancelled := by
            rw [hrow', Option.map_some', Option.map_some', DB.row_setStatus hrow']
          rw [hs, hs']
          have hvalid : isValidStatusTransition o'.Status StatusCancelled = true := hos ▸ hv
          exact ⟨Or.inr (Or.inr ⟨_, _, rfl, rfl, hvalid⟩), fun _ _ => ⟨_, _, rfl, rfl, hvalid⟩⟩
        · refine ⟨Or.inl ?_, fun h => absurd h hid⟩
          unfold statusOf
          cases hr : w.db.row id with
          | none => rfl
          | some o =>
            have hne : o.ID ≠ id' := by rw [DB.row_ID hr]; exact fun h => hid h.symm
            simp only [Option.map_some', setStatus_of_ne hne]
    · have hp : order.Status ≠ StatusPending := fun h => hguard (Or.inl h)
      have hc : order.Status ≠ StatusConfirmed := fun h => hguard (Or.inr h)
      rw [CancelOrder_of_invalid w id' order hg hp hc]
      exact ⟨StatusStep.of_orders (DB.next_orders w.db) id, fun _ h => by simp at h⟩

end RunLemmas

section RunService
variable {F : Type} [Float64 F]

theorem created_Status (w : World F) (req : CreateOrderRequest F) :
    (created w req).Status = StatusPending := rfl

/-- What a `CreateOrder` does to the stored status of the order `id`. -/
theorem CreateOrder_step (w : World F) (req : CreateOrderRequest F) (id : Nat) :
    StatusStep (statusOf w id) (statusOf (orderService.CreateOrder w req).2 id) := by
  by_cases hne : req.Items = []
  · have h : (orderService.CreateOrder w req).2 = w := by
      unfold orderService.CreateOrder
      simp [hne]
    rw [h]
    exact Or.inl rfl
  · rw [CreateOrder_eq w req hne]
    cases w.db.fault 0 with
    | some e => exact StatusStep.of_orders (DB.next_orders w.db) id
    | none =>
      show StatusStep _ (((w.db.next.2.insert (created w req)).row id).map fun o => o.Status)
      rw [DB.insert_row, DB.next_row]
      unfold statusOf
      cases hr : w.db.row id with
      | some o => exact Or.inl rfl
      | none =>
        cases hc : ((created w req).ID == id && (created w req).DeletedAt.isNone) with
        | false => exact Or.inl rfl
        | true => exact Or.inr (Or.inl ⟨rfl, by simp [created_Status]⟩)

/-- What a call does to the stored status of the order `id`. -/
theorem Call.run_step (w : World F) (call : Call F) (id : Nat) :
    StatusStep (statusOf w id) (statusOf (call.run w) id) := by
  cases call with
  | CreateOrder req => exact CreateOrder_step w req id
  | GetOrderByID id' =>
    show StatusStep _ (statusOf (orderService.GetOrderByID w id').2 id)
    rw [GetOrderByID_eq]
    exact StatusStep.of_orders (DB.next_orders w.db) id
  | GetOrdersByCustomer customerID limit offset =>
    refine StatusStep.of_orders ?_ id
    show (orderService.GetOrdersByCustomer w customerID limit offset).2.db.orders = _
    have h : (orderService.GetOrdersByCustomer w customerID limit offset).2.db
        = (w.db.Find customerID limit offset).2 := by
      unfold orderService.GetOrdersByCustomer orderRepository.GetByCustomerID
      rcases w.db.Find customerID limit offset with ⟨r, db⟩
      cases r <;> rfl
    rw [h, DB.Find_snd, DB.next_orders]
  | UpdateOrderStatus id' status => exact (UpdateOrderStatus_step w id' status id).1
  | CancelOrder id' => exact (CancelOrder_step w id' id).1

/-- A successful status change moves the stored status along an allowed
transition. -/
theorem Call.changes_valid (w : World F) (call : Call F) (id : Nat)
    (h : call.changes w id = true) :
    ∃ s s', statusOf w id = some s ∧ statusOf (call.run w) id = some s' ∧
      isValidStatusTransition s s' = true := by
  cases call with
  | CreateOrder req => simp [Call.changes] at h
  | GetOrderByID id' => simp [Call.changes] at h
  | GetOrdersByCustomer customerID limit offset => simp [Call.changes] at h
  | UpdateOrderStatus id' status =>
    simp only [Call.changes, Bool.and_eq_true, beq_iff_eq] at h
    exact (UpdateOrderStatus_step w id' status id).2 h.1 h.2
  | CancelOrder id' =>
    simp only [Call.changes, Bool.and_eq_true, beq_iff_eq] at h
    exact (CancelOrder_step w id' id).2 h.1 h.2

theorem StatusStep.rank_lt {a b : Option OrderStatus} (h : StatusStep a b) :
    a = b ∨ rankOpt a < rankOpt b := by
  rcases h with h | ⟨ha, hb⟩ | ⟨s, s', ha, hb, hv⟩
  · exact Or.inl h
  · right; rw [ha, hb]; decide
  · right
    rw [ha, hb]
    have := rank_lt_of_valid hv
    simp only [rankOpt]
    omega

theorem StatusStep.not_failed {a b : Option OrderStatus} (h : StatusStep a b) :
    a = b ∨ b ≠ some StatusFailed := by
  rcases h with h | ⟨_, hb⟩ | ⟨s, s', _, hb, hv⟩
  · exact Or.inl h
  · right; rw [hb]; decide
  · right
    rw [hb]
    intro hf
    exact ne_failed_of_valid hv (Option.some.inj hf)

theorem runCalls_cons (w : World F) (call : Call F) (calls : List (Call F)) :
    runCalls w (call :: calls) = runCalls (call.run w) calls := rfl

/-- Along a run the stored status of an order stays as it is or its rank
grows. -/
theorem runCalls_rank (id : Nat) (calls : List (Call F)) :
    ∀ w : World F, statusOf (runCalls w calls) id = statusOf w id ∨
      rankOpt (statusOf w id) < rankOpt (statusOf (runCalls w calls) id) := by
  induction calls with
  | nil => intro w; exact Or.inl rfl
  | cons call rest ih =>
    intro w
    rw [runCalls_cons]
    rcases (Call.run_step w call id).rank_lt with h1 | h1 <;> rcases ih (call.run w) with h2 | h2
    · left; rw [h2, ← h1]
    · right; rw [h1]; exact h2
    · right; rw [h2]; exact h1
    · right; omega

theorem runCalls_not_failed (id : Nat) (calls : List (Call F)) :
    ∀ w : World F, statusOf (runCalls w calls) id = statusOf w id ∨
      statusOf (runCalls w calls) id ≠ some StatusFailed := by
  induction calls with
  | nil => intro w; exact Or.inl rfl
  | cons call rest ih =>
    intro w
    rw [runCalls_cons]
    rcases (Call.run_step w call id).not_failed with h1 | h1 <;>
      rcases ih (call.run w) with h2 | h2
    · left; rw [h2, ← h1]
    · right; exact h2
    · right; rw [h2]; exact h1
    · right; exact h2

theorem countChanges_bound (id : Nat) (calls : List (Call F)) :
    ∀ w : World F, countChanges w id calls + max 1 (rankOpt (statusOf w id)) ≤ 5 := by
  induction calls with
  | nil =>
    intro w
    have h : rankOpt (statusOf w id) ≤ 5 := by
      cases statusOf w id with
      | none => simp [rankOpt]
      | some s => have := rank_le s; simp only [rankOpt]; omega
    simp only [countChanges]
    omega
  | cons call rest ih =>
    intro w
    have hih := ih (call.run w)
    simp only [countChanges]
    by_cases hc : call.changes w id = true
    · obtain ⟨s, s', hs, hs', hv⟩ := Call.changes_valid w call id hc
      have := rank_lt_of_valid hv
      rw [hs'] at hih
      rw [hs, if_pos hc]
      simp only [rankOpt] at hih ⊢
      omega
    · rw [if_neg hc]
      rcases (Call.run_step w call id).rank_lt with h1 | h1
      · rw [← h1] at hih; omega
      · omega

end RunService

/-- C15: the transition relation of `isValidStatusTransition` has no cycles and
bounded depth.  Every sequence of statuses `s0, ..., sn` in which each step is an
allowed transition has `n <= 4` (at most five members) and no status occurring
twice, and no transition leads to failed.  For the service, whose store returns
in its reads what the preceding writes have stored: every successful
`UpdateOrderStatus` or `CancelOrder` moves the stored status of its order along
an allowed transition; in every sequence of calls of the service no order
undergoes more than four successful status changes; an order whose stored status
has changed never has its former status again; and an order whose status is not
failed never gets the status failed. -/
theorem C15_lifecycle_acyclic_bounded {F : Type} [Float64 F] :
    (∀ l : List OrderStatus,
      List.Chain' (fun a b => isValidStatusTransition a b = true) l →
        l.length ≤ 4 + 1 ∧ l.Nodup) ∧
    (∀ s : OrderStatus, isValidStatusTransition s StatusFailed = false) ∧
    (∀ (w : World F) (call : Call F) (id : Nat), call.changes w id = true →
      ∃ s s', statusOf w id = some s ∧ statusOf (call.run w) id = some s' ∧
        isValidStatusTransition s s' = true) ∧
    (∀ (w : World F) (calls : List (Call F)) (id : Nat), countChanges w id calls ≤ 4) ∧
    (∀ (w : World F) (calls₁ calls₂ : List (Call F)) (id : Nat),
      statusOf (runCalls w calls₁) id ≠ statusOf w id →
        statusOf (runCalls (runCalls w calls₁) calls₂) id ≠ statusOf w id) ∧
    (∀ (w : World F) (calls : List (Call F)) (id : Nat),
      statusOf w id ≠ some StatusFailed →
        statusOf (runCalls w calls) id ≠ some StatusFailed) := by
  refine ⟨?_, ?_, ?_, ?_, ?_, ?_⟩
  · intro l h
    refine ⟨?_, chain_nodup l h⟩
    cases l with
    | nil => simp
    | cons s t =>
      have := chain_length_add_rank t s h
      omega
  · intro s
    cases h : isValidStatusTransition s StatusFailed with
    | false => rfl
    | true => exact absurd rfl (ne_failed_of_valid h)
  · intro w call id h
    exact Call.changes_valid w call id h
  · intro w calls id
    have := countChanges_bound id calls w
    omega
  · intro w calls₁ calls₂ id hne
    rcases runCalls_rank id calls₁ w with h1 | h1
    · exact absurd h1 hne
    · intro heq
      rcases runCalls_rank id calls₂ (runCalls w calls₁) with h2 | h2
      · rw [h2] at heq; exact hne heq
      · rw [heq] at h2; omega
  · intro w calls id hne
    rcases runCalls_not_failed id calls w with h | h
    · rw [h]; exact hne
    · exact h

/-- C15 at the stored order 1 with status pending: the four updates to confirmed,
paid, shipped and delivered succeed, the update back to pending and the
cancellation that follow do not, and the order ends as delivered. -/
theorem C15_lifecycle_acyclic_bounded_witness :
    countChanges (worldOf [sampleOrder 1 "pending"]) 1 (lifecycleCalls 1) = 4 ∧
    statusOf (runCalls (worldOf [sampleOrder 1 "pending"]) (lifecycleCalls 1)) 1
      = some "delivered" ∧
    statusOf (runCalls (worldOf [sampleOrder 1 "pending"]) (lifecycleCalls 1)) 1
      ≠ some StatusFailed ∧
    ["pending", "confirmed", "paid", "shipped", "delivered"].Nodup :=
  have h := C15_lifecycle_acyclic_bounded (F := Rat)
  ⟨by decide, by decide,
    h.2.2.2.2.2 (worldOf [sampleOrder 1 "pending"]) (lifecycleCalls 1) 1 (by decide),
    (h.1 ["pending", "confirmed", "paid", "shipped", "delivered"]
      (by simp only [List.chain'_cons, List.chain'_singleton, and_true]; decide)).2⟩

end OrderService
